import Mathlib

/-!
# ddd2isis: header decoding and import set-up

A shallow embedding of `IsisMain` from
`isis/src/base/apps/ddd2isis/ddd2isis.cpp`, followed by theorems about it.

Conventions of the embedding.

* The host is the platform ISIS is built for: little-endian with an 8-byte
  `long`.  The union `readBytes` overlays `readChars[4]` and `readFloat` on the
  low four bytes of `readLong`; the upper four bytes are zeroed by
  `readBytes.readLong = 0` and never written again, so `readLong` is the
  unsigned value of the four low bytes.
* Passing the four bytes through a `float` is taken to preserve their bits.
* `int` is 32 bits wide; `(int)` on a `long` wraps modulo `2^32`.
* Behaviour the C++ standard leaves undefined (dereferencing `end()`, dividing
  by zero, `INT_MIN / -1`) ends the run with `Result.undefined`.
-/

namespace Ddd2Isis

/-- One `char` of the input file. -/
abbrev Byte := Fin 256

/-- The byte whose value is `n` modulo 256. -/
def byteOf (n : Nat) : Byte := ⟨n % 256, Nat.mod_lt n (by decide)⟩

/-! ## `std::ifstream` -/

/-- The part of a binary `std::ifstream` that `IsisMain` observes: the bytes of
the file, whether it is open, the read cursor and the two state bits the source
tests. -/
structure IfStream where
  data : List Byte
  isOpen : Bool
  pos : Nat
  failbit : Bool
  eofbit : Bool
deriving DecidableEq, Repr

namespace IfStream

/-- The call `fin.open(name, ios::in | ios::binary)`: `none` is a file that cannot
be opened, which leaves the stream closed with `failbit` set. -/
def openFile (file : Option (List Byte)) : IfStream :=
  match file with
  | some d => { data := d, isOpen := true, pos := 0, failbit := false, eofbit := false }
  | none => { data := [], isOpen := false, pos := 0, failbit := true, eofbit := false }

/-- The test `fin.is_open()`. -/
def is_open (s : IfStream) : Bool := s.isOpen

/-- The test `fin.fail()`. -/
def fail (s : IfStream) : Bool := s.failbit

/-- The test `fin.eof()`. -/
def eof (s : IfStream) : Bool := s.eofbit

/-- The test `fin.good()`: no state bit is set. -/
def good (s : IfStream) : Bool := !s.failbit && !s.eofbit

/-- The call `fin.seekg(p)`: clears `eofbit`, then moves the cursor unless the
stream has failed.  The source only calls it with `p = 0`. -/
def seekg (s : IfStream) (p : Nat) : IfStream :=
  if s.failbit then { s with eofbit := false }
  else { s with eofbit := false, pos := p }

/-- The call `fin.read(buf, n)`: returns the characters extracted and the new
stream.  A stream that is not good extracts nothing and sets `failbit`;
otherwise up to `n` characters are extracted, and when fewer than `n` are
left both `eofbit` and `failbit` are set. -/
def read (s : IfStream) (n : Nat) : List Byte × IfStream :=
  if s.good then
    let got := (s.data.drop s.pos).take n
    if got.length < n then
      (got, { s with pos := s.pos + got.length, failbit := true, eofbit := true })
    else
      (got, { s with pos := s.pos + n })
  else
    ([], { s with failbit := true })

/-- The call `fin.close()`. -/
def close (s : IfStream) : IfStream := { s with isOpen := false }

end IfStream

/-! ## The union `readBytes` -/

/-- The four bytes shared by `readChars`, `readFloat` and the low half of
`readLong`, in memory order. -/
structure ReadBytes where
  c0 : Byte
  c1 : Byte
  c2 : Byte
  c3 : Byte
deriving DecidableEq, Repr

namespace ReadBytes

/-- The assignment `readBytes.readLong = 0`. -/
def zero : ReadBytes := ⟨0, 0, 0, 0⟩

/-- The member `readBytes.readLong` read on a little-endian host. -/
def readLong (r : ReadBytes) : Int :=
  (r.c0.val : Int) + 256 * (r.c1.val : Int) + 65536 * (r.c2.val : Int)
    + 16777216 * (r.c3.val : Int)

/-- The effect of `fin.read(readBytes.readChars, 4)` on the union: the
characters extracted overwrite the first bytes of `readChars`, the others
keep their value. -/
def store (r : ReadBytes) (got : List Byte) : ReadBytes :=
  match got with
  | [] => r
  | [a] => { r with c0 := a }
  | [a, b] => { r with c0 := a, c1 := b }
  | [a, b, c] => { r with c0 := a, c1 := b, c2 := c }
  | a :: b :: c :: d :: _ => ⟨a, b, c, d⟩

end ReadBytes

/-- Modelled from the spec: `EndianSwapper` is not among the sources.  The spec
has every header field a 4-byte big-endian integer converted to a host value,
so `EndianSwapper swp("MSB")` on the little-endian host reverses the four
bytes; `Float` returns them as the bits of the `float` it hands back. -/
def EndianSwapper.Float (r : ReadBytes) : ReadBytes := ⟨r.c3, r.c2, r.c1, r.c0⟩

/-- The conversion `(int)` of a `long` to a 32-bit `int`. -/
def toInt32 (x : Int) : Int := (x + 2147483648) % 4294967296 - 2147483648

/-- Division of two `int`s: truncating, and undefined (`none`) for a zero
divisor and for `INT_MIN / -1`. -/
def intDiv (a b : Int) : Option Int :=
  if b = 0 then none
  else if a = -2147483648 ∧ b = -1 then none
  else some (Int.tdiv a b)

/-! ## The sample-type table -/

/-- The map `dataTypes` of the source: bit type of the file to number of bytes
of that type. -/
def dataTypes : List (Int × Int) :=
  [ (1450901768, 1),
    (1450902032, 2),
    (1450902288, 2),
    (1450902560, 4),
    (1450902816, 4),
    (1450903072, 4),
    (1450903360, 8),
    (8, 1),
    (16, 2),
    (48, 2) ]

/-- The call `m.find(k)` of `std::map`: the entry with key `k`, or `none` for
the iterator `end()`. -/
def mapFind (m : List (Int × Int)) (k : Int) : Option (Int × Int) :=
  m.find? (fun e => e.1 == k)

/-! ## Collaborators -/

/-- Modelled from the spec: `PvlKeyword` is not among the sources; the spec has
the record map a field name to a stringified value. -/
structure PvlKeyword where
  name : String
  value : String
deriving DecidableEq, Repr

/-- Modelled from the spec: `PvlGroup` is not among the sources; a named group
holding its keywords in the order `+=` added them. -/
structure PvlGroup where
  name : String
  keywords : List PvlKeyword
deriving DecidableEq, Repr

/-- The class of an `IException`; the source throws `IException::Io` only. -/
inductive ErrorType where
  | Io
deriving DecidableEq, Repr

/-- An `IException` as thrown by the source: its class and message. -/
structure IException where
  type : ErrorType
  message : String
deriving DecidableEq, Repr

/-- The pixel types the source selects. -/
inductive PixelType where
  | UnsignedByte
  | UnsignedWord
  | Real
deriving DecidableEq, Repr

/-- The one interleave the source selects, `ProcessImport::BIP`. -/
inductive Interleave where
  | BIP
deriving DecidableEq, Repr

/-- The one byte order the source selects, `Isis::Msb`. -/
inductive ByteOrder where
  | Msb
deriving DecidableEq, Repr

/-- Modelled from the spec: `ProcessImport` is not among the sources; the spec
has the pipeline accept element type, interleave organization, dimensions,
header byte length, byte order, source path and destination.  Each field
records the argument of the setter the source called, `none` when the setter
was not called; `started` records `StartProcess`. -/
structure ProcessImport where
  pixelType : Option PixelType := none
  organization : Option Interleave := none
  dimensions : Option (Int × Int × Int) := none
  fileHeaderBytes : Option Int := none
  byteOrder : Option ByteOrder := none
  inputFile : Option String := none
  outputCube : Option String := none
  started : Bool := false
deriving DecidableEq, Repr

/-! ## `IsisMain` -/

/-- The program state of `IsisMain`: the stream, the union, the `int` locals
(`none` until assigned), the groups handed to `Application::Log` and the
`ProcessImport` object. -/
structure State where
  fin : IfStream
  readBytes : ReadBytes
  nLines : Option Int := none
  nBytes : Option Int := none
  totalBandBits : Option Int := none
  bitType : Option Int := none
  dataTypeBytes : Option Int := none
  nOffset : Option Int := none
  nSamples : Option Int := none
  nBands : Option Int := none
  bitsPerBand : Option Int := none
  log : List PvlGroup := []
  p : Option ProcessImport := none
deriving DecidableEq, Repr

/-- How a run of `IsisMain` ends: it returns, it throws, or it meets
undefined behaviour. -/
inductive Result where
  | done
  | thrown (e : IException)
  | undefined
deriving DecidableEq, Repr

/-- A finished run: the state reached and how the run ended. -/
structure Run where
  state : State
  result : Result
deriving DecidableEq, Repr

/-- The statement pair
`fin.read(readBytes.readChars, 4); readBytes.readFloat = swp.Float(readBytes.readChars);`:
the stream and the union after it. -/
def readField (fin : IfStream) (readBytes : ReadBytes) : IfStream × ReadBytes :=
  let r := fin.read 4
  (r.2, EndianSwapper.Float (readBytes.store r.1))

/-- The expression `dataTypes.find(k) -> second`: undefined (`none`) when `find`
returns `end()`. -/
def findSecond (m : List (Int × Int)) (k : Int) : Option Int :=
  match mapFind m k with
  | some entry => some entry.2
  | none => none

/-- The `switch (bitsPerBand)` of the source: the pixel type set, `none` for
the `default` branch. -/
def pixelTypeOf (bitsPerBand : Int) : Option PixelType :=
  if bitsPerBand = 8 then some PixelType.UnsignedByte
  else if bitsPerBand = 16 then some PixelType.UnsignedWord
  else if bitsPerBand = 32 then some PixelType.Real
  else none

/-- The group `results` as built by the source. -/
def fileInfo (nLines nBytes totalBandBits nSamples nBands nOffset : Int) : PvlGroup :=
  { name := "FileInfo",
    keywords :=
      [ ⟨"NumberOfLines", toString nLines⟩,
        ⟨"NumberOfBytesPerLine", toString nBytes⟩,
        ⟨"BitType", toString totalBandBits⟩,
        ⟨"NumberOfSamples", toString nSamples⟩,
        ⟨"NumberOfBands", toString nBands⟩,
        ⟨"LabelBytes", toString nOffset⟩ ] }

/-- The body of `if ( ui.WasEntered("TO") )`, entered in state `s` with the
parameter value `toName`. -/
def importTo (s : State) (fromName toName : String)
    (nLines totalBandBits nOffset nSamples nBands bitsPerBand : Int) : Run :=
  match pixelTypeOf bitsPerBand with
  | none =>
    { state := s,
      result := Result.thrown
        { type := ErrorType.Io,
          message := "Unsupported bit per pixel count [" ++ toString totalBandBits ++ "]. "
            ++ "(Use the raw2isis and crop programs to import the file in case it is "
            ++ "line or sample interleaved.)" } }
  | some t =>
    { state :=
        { s with
          p := some
            { pixelType := some t,
              -- ddd files with more than one band are pixel interleaved
              organization := if nBands > 1 then some Interleave.BIP else none,
              dimensions := some (nSamples, nLines, nBands),
              fileHeaderBytes := some nOffset,
              byteOrder := some ByteOrder.Msb,
              inputFile := some fromName,
              outputCube := some toName,
              started := true } },
      result := Result.done }

/-- Lines 116 to 165 of the source: the group `results`, the three divisions
and the import, entered with the stream `fin`, the union `rb` and the locals
read from the header. -/
def report (fin : IfStream) (rb : ReadBytes) (fromName : String) (toName : Option String)
    (nLines nBytes totalBandBits bitType dataTypeBytes nOffset : Int) : Run :=
  let s : State :=
    { fin := fin, readBytes := rb, nLines := some nLines, nBytes := some nBytes,
      totalBandBits := some totalBandBits, bitType := some bitType,
      dataTypeBytes := some dataTypeBytes, nOffset := some nOffset }
  match intDiv nBytes (Int.tdiv totalBandBits 8) with
  | none => { state := s, result := Result.undefined }
  | some nSamples =>
  match intDiv (Int.tdiv totalBandBits 8) dataTypeBytes with
  | none => { state := { s with nSamples := some nSamples }, result := Result.undefined }
  | some nBands =>
  let s : State :=
    { s with
      nSamples := some nSamples, nBands := some nBands,
      log := [fileInfo nLines nBytes totalBandBits nSamples nBands nOffset],
      fin := fin.close,
      p := some {} }
  match intDiv totalBandBits nBands with
  | none => { state := s, result := Result.undefined }
  | some bitsPerBand =>
  match toName with
  | some t =>
    importTo { s with bitsPerBand := some bitsPerBand } fromName t
      nLines totalBandBits nOffset nSamples nBands bitsPerBand
  | none => { state := { s with bitsPerBand := some bitsPerBand }, result := Result.done }

/-- Lines 99 to 114 of the source and the call of what follows them, entered
after the bit type has been read, with `second` the value of
`dataTypes.find(...) -> second` (`none`: undefined). -/
def readOffset (fin : IfStream) (rb : ReadBytes) (fromName : String) (toName : Option String)
    (nLines nBytes totalBandBits bitType : Int) (second : Option Int) : Run :=
  match second with
  | none =>
    { state :=
        { fin := fin, readBytes := rb, nLines := some nLines, nBytes := some nBytes,
          totalBandBits := some totalBandBits, bitType := some bitType },
      result := Result.undefined }
  | some dataTypeBytes =>
  -- Read bytes 20-23 to get offset
  let r6 := readField fin rb
  let nOffset := toInt32 r6.2.readLong
  report r6.1 r6.2 fromName toName nLines nBytes totalBandBits bitType dataTypeBytes
    (if nOffset < 1024 then 1024 else nOffset)

/-- The function `IsisMain`, run on the file `file` (`none`: it cannot be
opened) named by the parameter `FROM`, with the parameter `TO` given as
`toName` (`none`: it was not entered). -/
def IsisMain (file : Option (List Byte)) (fromName : String) (toName : Option String) : Run :=
  let fin := IfStream.openFile file
  if !fin.is_open then
    { state := { fin := fin, readBytes := ReadBytes.zero },
      result := Result.thrown
        { type := ErrorType.Io, message := "Cannot open input file [" ++ fromName ++ "]" } }
  else
  -- Verify that the file is a ddd by reading in the first 4 bytes
  let r1 := readField (fin.seekg 0) ReadBytes.zero
  if r1.2.readLong ≠ 1659 then
    { state := { fin := r1.1, readBytes := r1.2 },
      result := Result.thrown
        { type := ErrorType.Io,
          message := "Input file [" ++ fromName ++ "] does not appear to be in ddd format" } }
  else
  -- Read bytes 4-7 to get number of lines
  let r2 := readField r1.1 r1.2
  let nLines := toInt32 r2.2.readLong
  -- Read bytes 8-11 to get number of bytes
  let r3 := readField r2.1 r2.2
  let nBytes := toInt32 r3.2.readLong
  -- Read bytes 12-15 to get the total number of bits out of all the bands
  let r4 := readField r3.1 r3.2
  if r4.1.fail || r4.1.eof then
    { state := { fin := r4.1, readBytes := r4.2, nLines := some nLines, nBytes := some nBytes },
      result := Result.thrown
        { type := ErrorType.Io,
          message := "An error ocurred when reading the input file [" ++ fromName ++ "]" } }
  else
  let totalBandBits := toInt32 r4.2.readLong
  -- Read bytes 16-19 to get the bit type
  let r5 := readField r4.1 r4.2
  let bitType := toInt32 r5.2.readLong
  -- Old header format has no bit type
  readOffset r5.1 r5.2 fromName toName nLines nBytes totalBandBits bitType
    (findSecond dataTypes (if bitType = 0 then totalBandBits else bitType))

/-! ## Header encodings -/

/-- The four bytes of the 32-bit integer `x`, most significant first (two's
complement for a negative `x`). -/
def encodeInt32 (x : Int) : List Byte :=
  let u := (x % 4294967296).toNat
  [byteOf (u / 16777216), byteOf (u / 65536), byteOf (u / 256), byteOf u]

/-- A value is a 32-bit `int`. -/
def isInt32 (x : Int) : Prop := -2147483648 ≤ x ∧ x ≤ 2147483647

instance (x : Int) : Decidable (isInt32 x) := by unfold isInt32; infer_instance

/-- The 24 header bytes holding the six fields in file order. -/
def encodeHeader (magic nLines nBytes totalBandBits bitType nOffset : Int) : List Byte :=
  encodeInt32 magic ++ encodeInt32 nLines ++ encodeInt32 nBytes ++ encodeInt32 totalBandBits
    ++ encodeInt32 bitType ++ encodeInt32 nOffset

/-- The union after a field holding `x` has been read and swapped. -/
def hostBytes (x : Int) : ReadBytes :=
  ⟨byteOf (x % 4294967296).toNat, byteOf ((x % 4294967296).toNat / 256),
   byteOf ((x % 4294967296).toNat / 65536), byteOf ((x % 4294967296).toNat / 16777216)⟩

/-! ## Definitions used to state the theorems -/

/-- The state of a run that got past the three divisions: every local is
assigned, the group has been logged, the stream closed and the import object
constructed. -/
def resolved (fin : IfStream) (rb : ReadBytes)
    (nLines nBytes totalBandBits bitType dataTypeBytes nOffset nSamples nBands bitsPerBand : Int) :
    State :=
  { fin := fin.close, readBytes := rb, nLines := some nLines, nBytes := some nBytes,
    totalBandBits := some totalBandBits, bitType := some bitType,
    dataTypeBytes := some dataTypeBytes, nOffset := some nOffset, nSamples := some nSamples,
    nBands := some nBands, bitsPerBand := some bitsPerBand,
    log := [fileInfo nLines nBytes totalBandBits nSamples nBands nOffset], p := some {} }

/-- The end of a run that got past the three divisions. -/
def finish (s : State) (fromName : String) (toName : Option String)
    (nLines totalBandBits nOffset nSamples nBands bitsPerBand : Int) : Run :=
  match toName with
  | some t => importTo s fromName t nLines totalBandBits nOffset nSamples nBands bitsPerBand
  | none => { state := s, result := Result.done }

/-- The message of the exception thrown by the `default` branch. -/
def unsupportedMessage (totalBandBits : Int) : String :=
  "Unsupported bit per pixel count [" ++ toString totalBandBits ++ "]. "
    ++ "(Use the raw2isis and crop programs to import the file in case it is "
    ++ "line or sample interleaved.)"

/-- The import object at `StartProcess`. -/
def startedImport (t : PixelType) (fromName toName : String)
    (nLines nOffset nSamples nBands : Int) : ProcessImport :=
  { pixelType := some t,
    organization := if nBands > 1 then some Interleave.BIP else none,
    dimensions := some (nSamples, nLines, nBands),
    fileHeaderBytes := some nOffset,
    byteOrder := some ByteOrder.Msb,
    inputFile := some fromName,
    outputCube := some toName,
    started := true }

/-- The bytes of one element of a pixel type. -/
def elementBytes : PixelType → Int
  | PixelType.UnsignedByte => 1
  | PixelType.UnsignedWord => 2
  | PixelType.Real => 4

/-! ## Lemmas -/

/-- The value of `byteOf`. -/
theorem byteOf_val (n : Nat) : (byteOf n).val = n % 256 := rfl

/-- Reading a field whose four bytes are in the file: the stream stays good, the
cursor moves by four and the union holds the bytes reversed. -/
theorem readField_four (d : List Byte) (o : Bool) (p : Nat) (a b c e : Byte) (tl : List Byte)
    (rb : ReadBytes) (h : d.drop p = a :: b :: c :: e :: tl) :
    readField ⟨d, o, p, false, false⟩ rb = (⟨d, o, p + 4, false, false⟩, ⟨e, c, b, a⟩) := by
  simp [readField, IfStream.read, IfStream.good, h, ReadBytes.store, EndianSwapper.Float]

/-- Reading a field that holds the encoding of `x`. -/
theorem readField_encode (d : List Byte) (o : Bool) (p : Nat) (x : Int) (tl : List Byte)
    (rb : ReadBytes) (h : d.drop p = encodeInt32 x ++ tl) :
    readField ⟨d, o, p, false, false⟩ rb = (⟨d, o, p + 4, false, false⟩, hostBytes x) := by
  exact readField_four d o p _ _ _ _ tl rb (by simpa [encodeInt32] using h)

/-- The `int` read back from the encoding of a 32-bit `x` is `x`. -/
theorem toInt32_hostBytes (x : Int) (hx : isInt32 x) : toInt32 (hostBytes x).readLong = x := by
  unfold isInt32 at hx
  simp only [hostBytes, ReadBytes.readLong, byteOf_val, toInt32]
  omega

/-- The `long` read back from the encoding of `x` is `x` modulo `2^32`. -/
theorem readLong_hostBytes (x : Int) : (hostBytes x).readLong = x % 4294967296 := by
  simp only [hostBytes, ReadBytes.readLong, byteOf_val]
  omega

/-- One `read` of four characters keeps the file, keeps `failbit` once set, and
either sets `failbit` or moves the cursor by four within the file. -/
theorem read_inv (s : IfStream) :
    (s.read 4).2.data = s.data
      ∧ (s.failbit = true → (s.read 4).2.failbit = true)
      ∧ ((s.read 4).2.failbit = true
        ∨ ((s.read 4).2.pos = s.pos + 4 ∧ s.pos + 4 ≤ s.data.length)) := by
  by_cases hg : s.good = true
  · by_cases hl : s.data.length - s.pos < 4
    · refine ⟨?_, ?_, Or.inl ?_⟩ <;> simp [IfStream.read, hg, hl]
    · have hle : s.pos + 4 ≤ s.data.length := by omega
      refine ⟨?_, ?_, Or.inr ⟨?_, hle⟩⟩ <;> simp [IfStream.read, hg, hl]
  · refine ⟨?_, ?_, Or.inl ?_⟩ <;> simp [IfStream.read, hg]

/-- After four fields have been read from a file shorter than 16 bytes the
stream has failed. -/
theorem four_reads_fail (d : List Byte) (rb : ReadBytes) (hlen : d.length < 16) :
    (readField (readField (readField (readField ⟨d, true, 0, false, false⟩ rb).1
      (readField ⟨d, true, 0, false, false⟩ rb).2).1
      (readField (readField ⟨d, true, 0, false, false⟩ rb).1
      (readField ⟨d, true, 0, false, false⟩ rb).2).2).1
      (readField (readField (readField ⟨d, true, 0, false, false⟩ rb).1
      (readField ⟨d, true, 0, false, false⟩ rb).2).1
      (readField (readField ⟨d, true, 0, false, false⟩ rb).1
      (readField ⟨d, true, 0, false, false⟩ rb).2).2).2).1.failbit = true := by
  generalize h0 : (⟨d, true, 0, false, false⟩ : IfStream) = s0
  have i1 := read_inv s0
  generalize h1 : readField s0 rb = r1 at *
  have e1 : r1.1 = (s0.read 4).2 := by rw [← h1]; rfl
  have i2 := read_inv r1.1
  generalize h2 : readField r1.1 r1.2 = r2 at *
  have e2 : r2.1 = (r1.1.read 4).2 := by rw [← h2]; rfl
  have i3 := read_inv r2.1
  generalize h3 : readField r2.1 r2.2 = r3 at *
  have e3 : r3.1 = (r2.1.read 4).2 := by rw [← h3]; rfl
  have i4 := read_inv r3.1
  generalize h4 : readField r3.1 r3.2 = r4 at *
  have e4 : r4.1 = (r3.1.read 4).2 := by rw [← h4]; rfl
  rw [← e1] at i1
  rw [← e2] at i2
  rw [← e3] at i3
  rw [← e4] at i4
  have hd : s0.data = d := by rw [← h0]
  have hp : s0.pos = 0 := by rw [← h0]
  rcases i1 with ⟨d1, -, f1 | ⟨p1, l1⟩⟩
  · exact i4.2.1 (i3.2.1 (i2.2.1 f1))
  · rcases i2 with ⟨d2, -, f2 | ⟨p2, l2⟩⟩
    · exact i4.2.1 (i3.2.1 f2)
    · rcases i3 with ⟨d3, -, f3 | ⟨p3, l3⟩⟩
      · exact i4.2.1 f3
      · rcases i4 with ⟨d4, -, f4 | ⟨p4, l4⟩⟩
        · exact f4
        · rw [d3, d2, d1, hd] at l4
          omega

/-- The value of `IsisMain` on a file that starts with a whole header whose
magic number is 1659. -/
theorem IsisMain_header (L B T C O : Int) (rest : List Byte) (fromName : String)
    (toName : Option String) (hL : isInt32 L) (hB : isInt32 B) (hT : isInt32 T)
    (hC : isInt32 C) :
    IsisMain (some (encodeHeader 1659 L B T C O ++ rest)) fromName toName =
      readOffset ⟨encodeHeader 1659 L B T C O ++ rest, true, 20, false, false⟩ (hostBytes C)
        fromName toName L B T C (findSecond dataTypes (if C = 0 then T else C)) := by
  have h1 := readField_encode (encodeHeader 1659 L B T C O ++ rest) true 0 1659
    (encodeInt32 L ++ (encodeInt32 B ++ (encodeInt32 T ++ (encodeInt32 C ++ (encodeInt32 O ++ rest)))))
    ReadBytes.zero (by simp [encodeHeader])
  have h2 := readField_encode (encodeHeader 1659 L B T C O ++ rest) true 4 L
    (encodeInt32 B ++ (encodeInt32 T ++ (encodeInt32 C ++ (encodeInt32 O ++ rest))))
    (hostBytes 1659) (by simp [encodeHeader, encodeInt32])
  have h3 := readField_encode (encodeHeader 1659 L B T C O ++ rest) true 8 B
    (encodeInt32 T ++ (encodeInt32 C ++ (encodeInt32 O ++ rest)))
    (hostBytes L) (by simp [encodeHeader, encodeInt32])
  have h4 := readField_encode (encodeHeader 1659 L B T C O ++ rest) true 12 T
    (encodeInt32 C ++ (encodeInt32 O ++ rest))
    (hostBytes B) (by simp [encodeHeader, encodeInt32])
  have h5 := readField_encode (encodeHeader 1659 L B T C O ++ rest) true 16 C
    (encodeInt32 O ++ rest)
    (hostBytes T) (by simp [encodeHeader, encodeInt32])
  have hm : (hostBytes 1659).readLong = 1659 := by decide
  simp only [Nat.reduceAdd] at h1 h2 h3 h4 h5
  generalize encodeHeader 1659 L B T C O ++ rest = d at h1 h2 h3 h4 h5 ⊢
  have e2 := toInt32_hostBytes _ hL
  have e3 := toInt32_hostBytes _ hB
  have e4 := toInt32_hostBytes _ hT
  have e5 := toInt32_hostBytes _ hC
  generalize hostBytes L = rL at h2 h3 e2
  generalize hostBytes B = rB at h3 h4 e3
  generalize hostBytes T = rT at h4 h5 e4
  generalize hostBytes C = rC at h5 e5 ⊢
  generalize hostBytes 1659 = rM at h1 h2 hm
  unfold IsisMain
  simp [IfStream.openFile, IfStream.is_open, IfStream.seekg, IfStream.fail, IfStream.eof,
    h1, h2, h3, h4, h5, hm, e2, e3, e4, e5]

/-- The bad-magic message differs from the read-error message. -/
theorem notDdd_ne_readError (f : String) :
    "Input file [" ++ f ++ "] does not appear to be in ddd format"
      ≠ "An error ocurred when reading the input file [" ++ f ++ "]" := by
  intro h
  have h2 := congrArg (fun s => s.data.head?) h
  simp at h2

/-- The bad-magic message differs from the unsupported-depth message. -/
theorem notDdd_ne_unsupported (f g : String) :
    "Input file [" ++ f ++ "] does not appear to be in ddd format"
      ≠ "Unsupported bit per pixel count [" ++ g ++ "]. "
            ++ "(Use the raw2isis and crop programs to import the file in case it is "
            ++ "line or sample interleaved.)" := by
  intro h
  have h2 := congrArg (fun s => s.data.head?) h
  simp at h2

/-- An entry of the table is what `find` returns for its key. -/
theorem findSecond_of_mem (k w : Int) (h : (k, w) ∈ dataTypes) :
    findSecond dataTypes k = some w := by
  simp only [dataTypes, List.mem_cons, Prod.mk.injEq, List.mem_singleton, List.not_mem_nil,
    or_false] at h
  rcases h with h | h | h | h | h | h | h | h | h | h <;> obtain ⟨hk, hw⟩ := h <;>
    subst hk <;> subst hw <;> decide

/-- What `find` returns is an entry of the table. -/
theorem mem_of_findSecond (m : List (Int × Int)) (k w : Int) (h : findSecond m k = some w) :
    (k, w) ∈ m := by
  unfold findSecond mapFind at h
  cases hf : m.find? (fun e => e.1 == k) with
  | none => rw [hf] at h; cases h
  | some e =>
    rw [hf] at h
    have hm := List.mem_of_find?_eq_some hf
    have hk := List.find?_some hf
    simp only [beq_iff_eq] at hk
    simp only [Option.some.injEq] at h
    have : e = (k, w) := by
      cases e; simp_all
    exact this ▸ hm

/-- The byte widths of the table. -/
theorem width_of_findSecond (k w : Int) (h : findSecond dataTypes k = some w) :
    w = 1 ∨ w = 2 ∨ w = 4 ∨ w = 8 := by
  have hm := mem_of_findSecond dataTypes k w h
  simp only [dataTypes, List.mem_cons, Prod.mk.injEq, List.mem_singleton, List.not_mem_nil,
    or_false] at hm
  omega

/-- The `default` branch is taken exactly for a depth other than 8, 16 and 32. -/
theorem pixelTypeOf_eq_none (b : Int) : pixelTypeOf b = none ↔ b ≠ 8 ∧ b ≠ 16 ∧ b ≠ 32 := by
  unfold pixelTypeOf
  constructor
  · intro h
    split at h
    · cases h
    · split at h
      · cases h
      · split at h
        · cases h
        · exact ⟨by assumption, by assumption, by assumption⟩
  · rintro ⟨h1, h2, h3⟩
    simp only [if_neg h1, if_neg h2, if_neg h3]

/-- The import when the `switch` selects a pixel type. -/
theorem importTo_some (s : State) (fromName toName : String)
    (nLines totalBandBits nOffset nSamples nBands bitsPerBand : Int) (t : PixelType)
    (h : pixelTypeOf bitsPerBand = some t) :
    importTo s fromName toName nLines totalBandBits nOffset nSamples nBands bitsPerBand
      = { state := { s with p := some (startedImport t fromName toName nLines nOffset nSamples
            nBands) },
          result := Result.done } := by
  simp only [importTo, h, startedImport]

/-- The import when the `switch` takes its `default` branch. -/
theorem importTo_none (s : State) (fromName toName : String)
    (nLines totalBandBits nOffset nSamples nBands bitsPerBand : Int)
    (h : pixelTypeOf bitsPerBand = none) :
    importTo s fromName toName nLines totalBandBits nOffset nSamples nBands bitsPerBand
      = { state := s,
          result := Result.thrown ⟨ErrorType.Io, unsupportedMessage totalBandBits⟩ } := by
  simp only [importTo, h, unsupportedMessage]

/-- The import leaves `bitsPerBand` as it is. -/
theorem importTo_bitsPerBand (s : State) (fromName toName : String)
    (nLines totalBandBits nOffset nSamples nBands bitsPerBand : Int) :
    (importTo s fromName toName nLines totalBandBits nOffset nSamples nBands
      bitsPerBand).state.bitsPerBand = s.bitsPerBand := by
  unfold importTo
  split <;> rfl

/-- The end of the run leaves `bitsPerBand` as it is. -/
theorem finish_bitsPerBand (s : State) (fromName : String) (toName : Option String)
    (nLines totalBandBits nOffset nSamples nBands bitsPerBand : Int) :
    (finish s fromName toName nLines totalBandBits nOffset nSamples nBands
      bitsPerBand).state.bitsPerBand = s.bitsPerBand := by
  cases toName with
  | none => rfl
  | some t => exact importTo_bitsPerBand _ _ _ _ _ _ _ _ _

/-- A run of `finish` with `TO` entered that returns has set up and started
the import. -/
theorem finish_done (s : State) (fromName t : String)
    (nLines totalBandBits nOffset nSamples nBands bitsPerBand : Int)
    (h : (finish s fromName (some t) nLines totalBandBits nOffset nSamples nBands
      bitsPerBand).result = Result.done) :
    ∃ ty, pixelTypeOf bitsPerBand = some ty
      ∧ finish s fromName (some t) nLines totalBandBits nOffset nSamples nBands bitsPerBand
        = { state := { s with p := some (startedImport ty fromName t nLines nOffset nSamples
              nBands) },
            result := Result.done } := by
  simp only [finish] at h ⊢
  cases hp : pixelTypeOf bitsPerBand with
  | none =>
    rw [importTo_none _ _ _ _ _ _ _ _ _ hp] at h
    cases h
  | some ty => exact ⟨ty, rfl, importTo_some _ _ _ _ _ _ _ _ _ ty hp⟩

/-- The value of `report` when the three divisions are defined. -/
theorem report_of_divs (fin : IfStream) (rb : ReadBytes) (fromName : String)
    (toName : Option String) (nLines nBytes totalBandBits bitType w nOffset nSamples nBands
      bitsPerBand : Int)
    (h1 : intDiv nBytes (Int.tdiv totalBandBits 8) = some nSamples)
    (h2 : intDiv (Int.tdiv totalBandBits 8) w = some nBands)
    (h3 : intDiv totalBandBits nBands = some bitsPerBand) :
    report fin rb fromName toName nLines nBytes totalBandBits bitType w nOffset
      = finish (resolved fin rb nLines nBytes totalBandBits bitType w nOffset nSamples nBands
          bitsPerBand) fromName toName nLines totalBandBits nOffset nSamples nBands
          bitsPerBand := by
  unfold report finish resolved
  simp only [h1, h2, h3]

/-- Every exit of `report` has the locals read from the header set, and no
exit throws the bad-magic exception. -/
theorem report_exits (fin : IfStream) (rb : ReadBytes) (fromName : String)
    (toName : Option String) (nLines nBytes totalBandBits bitType w nOffset : Int) :
    let run := report fin rb fromName toName nLines nBytes totalBandBits bitType w nOffset
    run.state.nLines = some nLines ∧ run.state.nBytes = some nBytes
      ∧ run.state.totalBandBits = some totalBandBits ∧ run.state.bitType = some bitType
      ∧ run.state.dataTypeBytes = some w ∧ run.state.nOffset = some nOffset
      ∧ run.result ≠ Result.thrown ⟨ErrorType.Io,
          "Input file [" ++ fromName ++ "] does not appear to be in ddd format"⟩ := by
  unfold report importTo
  intro run
  simp only [run]
  split
  · simp
  · split
    · simp
    · split
      · simp
      · split
        · split
          · simp
            exact fun h => notDdd_ne_unsupported _ _ h.symm
          · simp
        · simp

/-- A run of `report` that ends with `bitsPerBand` assigned had its three
divisions defined. -/
theorem report_resolved (fin : IfStream) (rb : ReadBytes) (fromName : String)
    (toName : Option String) (nLines nBytes totalBandBits bitType w nOffset b : Int)
    (hb : (report fin rb fromName toName nLines nBytes totalBandBits bitType w
      nOffset).state.bitsPerBand = some b) :
    ∃ nSamples nBands, intDiv nBytes (Int.tdiv totalBandBits 8) = some nSamples
      ∧ intDiv (Int.tdiv totalBandBits 8) w = some nBands
      ∧ intDiv totalBandBits nBands = some b := by
  cases h1 : intDiv nBytes (Int.tdiv totalBandBits 8) with
  | none => simp [report, h1] at hb
  | some nSamples =>
    cases h2 : intDiv (Int.tdiv totalBandBits 8) w with
    | none => simp [report, h1, h2] at hb
    | some nBands =>
      cases h3 : intDiv totalBandBits nBands with
      | none => simp [report, h1, h2, h3] at hb
      | some b2 =>
        rw [report_of_divs fin rb fromName toName nLines nBytes totalBandBits bitType w nOffset
          nSamples nBands b2 h1 h2 h3, finish_bitsPerBand] at hb
        simp only [resolved, Option.some.injEq] at hb
        exact ⟨nSamples, nBands, rfl, rfl, hb ▸ h3⟩

/-- A run of `report` that returns got past the three divisions. -/
theorem report_done (fin : IfStream) (rb : ReadBytes) (fromName : String)
    (toName : Option String) (nLines nBytes totalBandBits bitType w nOffset : Int)
    (h : (report fin rb fromName toName nLines nBytes totalBandBits bitType w
      nOffset).result = Result.done) :
    ∃ b, (report fin rb fromName toName nLines nBytes totalBandBits bitType w
      nOffset).state.bitsPerBand = some b := by
  cases d1 : intDiv nBytes (Int.tdiv totalBandBits 8) with
  | none => simp [report, d1] at h
  | some nSamples =>
    cases d2 : intDiv (Int.tdiv totalBandBits 8) w with
    | none => simp [report, d1, d2] at h
    | some nBands =>
      cases d3 : intDiv totalBandBits nBands with
      | none => simp [report, d1, d2, d3] at h
      | some b =>
        refine ⟨b, ?_⟩
        rw [report_of_divs _ _ _ _ _ _ _ _ _ _ _ _ _ d1 d2 d3, finish_bitsPerBand]
        rfl

/-- How `report` ends, what it logs and the import it sets up do not depend on
the stream or the union. -/
theorem report_indep (fin fin2 : IfStream) (rb rb2 : ReadBytes) (fromName : String)
    (toName : Option String) (nLines nBytes totalBandBits bitType w nOffset : Int) :
    (report fin rb fromName toName nLines nBytes totalBandBits bitType w nOffset).result
        = (report fin2 rb2 fromName toName nLines nBytes totalBandBits bitType w nOffset).result
      ∧ (report fin rb fromName toName nLines nBytes totalBandBits bitType w nOffset).state.log
        = (report fin2 rb2 fromName toName nLines nBytes totalBandBits bitType w
            nOffset).state.log
      ∧ (report fin rb fromName toName nLines nBytes totalBandBits bitType w nOffset).state.p
        = (report fin2 rb2 fromName toName nLines nBytes totalBandBits bitType w
            nOffset).state.p := by
  cases h1 : intDiv nBytes (Int.tdiv totalBandBits 8) with
  | none => simp [report, h1]
  | some nSamples =>
    cases h2 : intDiv (Int.tdiv totalBandBits 8) w with
    | none => simp [report, h1, h2]
    | some nBands =>
      cases h3 : intDiv totalBandBits nBands with
      | none => simp [report, h1, h2, h3]
      | some b =>
        rw [report_of_divs _ _ _ _ _ _ _ _ _ _ _ _ _ h1 h2 h3,
          report_of_divs _ _ _ _ _ _ _ _ _ _ _ _ _ h1 h2 h3]
        cases toName with
        | none => exact ⟨rfl, rfl, rfl⟩
        | some t =>
          simp only [finish]
          cases hp : pixelTypeOf b with
          | none =>
            rw [importTo_none _ _ _ _ _ _ _ _ _ hp, importTo_none _ _ _ _ _ _ _ _ _ hp]
            exact ⟨rfl, rfl, rfl⟩
          | some ty =>
            rw [importTo_some _ _ _ _ _ _ _ _ _ ty hp, importTo_some _ _ _ _ _ _ _ _ _ ty hp]
            exact ⟨rfl, rfl, rfl⟩

/-- The cursor `report` leaves is the cursor it was entered with. -/
theorem report_pos (fin : IfStream) (rb : ReadBytes) (fromName : String)
    (toName : Option String) (nLines nBytes totalBandBits bitType w nOffset : Int) :
    (report fin rb fromName toName nLines nBytes totalBandBits bitType w nOffset).state.fin.pos
      = fin.pos := by
  cases h1 : intDiv nBytes (Int.tdiv totalBandBits 8) with
  | none => simp [report, h1]
  | some nSamples =>
    cases h2 : intDiv (Int.tdiv totalBandBits 8) w with
    | none => simp [report, h1, h2]
    | some nBands =>
      cases h3 : intDiv totalBandBits nBands with
      | none => simp [report, h1, h2, h3, IfStream.close]
      | some b =>
        rw [report_of_divs _ _ _ _ _ _ _ _ _ _ _ _ _ h1 h2 h3]
        cases toName with
        | none => rfl
        | some t =>
          simp only [finish]
          cases hp : pixelTypeOf b with
          | none => rw [importTo_none _ _ _ _ _ _ _ _ _ hp]; rfl
          | some ty => rw [importTo_some _ _ _ _ _ _ _ _ _ ty hp]; rfl

/-- Every exit of `readOffset` has the four locals read so far set, and no
exit throws the bad-magic exception. -/
theorem readOffset_exits (fin : IfStream) (rb : ReadBytes) (fromName : String)
    (toName : Option String) (nLines nBytes totalBandBits bitType : Int) (q : Option Int) :
    let run := readOffset fin rb fromName toName nLines nBytes totalBandBits bitType q
    run.state.nLines = some nLines ∧ run.state.nBytes = some nBytes
      ∧ run.state.totalBandBits = some totalBandBits ∧ run.state.bitType = some bitType
      ∧ run.state.dataTypeBytes = q
      ∧ run.result ≠ Result.thrown ⟨ErrorType.Io,
          "Input file [" ++ fromName ++ "] does not appear to be in ddd format"⟩ := by
  cases q with
  | none => simp [readOffset]
  | some w =>
    have h := report_exits (readField fin rb).1 (readField fin rb).2 fromName toName nLines nBytes
      totalBandBits bitType w
      (if toInt32 (readField fin rb).2.readLong < 1024 then 1024
        else toInt32 (readField fin rb).2.readLong)
    simp only [readOffset]
    exact ⟨h.1, h.2.1, h.2.2.1, h.2.2.2.1, h.2.2.2.2.1, h.2.2.2.2.2.2⟩

/-- The value of `IsisMain` on a file that starts with a whole header whose
magic number is 1659 and whose lookup key is in the table. -/
theorem IsisMain_header_some (L B T C O w : Int) (rest : List Byte) (fromName : String)
    (toName : Option String) (hL : isInt32 L) (hB : isInt32 B) (hT : isInt32 T)
    (hC : isInt32 C) (hO : isInt32 O)
    (hw : findSecond dataTypes (if C = 0 then T else C) = some w) :
    IsisMain (some (encodeHeader 1659 L B T C O ++ rest)) fromName toName =
      report ⟨encodeHeader 1659 L B T C O ++ rest, true, 24, false, false⟩ (hostBytes O)
        fromName toName L B T C w (if O < 1024 then 1024 else O) := by
  rw [IsisMain_header L B T C O rest fromName toName hL hB hT hC, hw]
  have h6 := readField_encode (encodeHeader 1659 L B T C O ++ rest) true 20 O
    rest (hostBytes C) (by simp [encodeHeader, encodeInt32])
  simp only [readOffset, h6, toInt32_hostBytes O hO]

/-- The value of `IsisMain` on a file that starts with a whole header whose
magic number is 1659 and whose lookup key is not in the table. -/
theorem IsisMain_header_none (L B T C O : Int) (rest : List Byte) (fromName : String)
    (toName : Option String) (hL : isInt32 L) (hB : isInt32 B) (hT : isInt32 T)
    (hC : isInt32 C)
    (hw : findSecond dataTypes (if C = 0 then T else C) = none) :
    IsisMain (some (encodeHeader 1659 L B T C O ++ rest)) fromName toName =
      { state :=
          { fin := ⟨encodeHeader 1659 L B T C O ++ rest, true, 20, false, false⟩,
            readBytes := hostBytes C, nLines := some L, nBytes := some B,
            totalBandBits := some T, bitType := some C },
        result := Result.undefined } := by
  rw [IsisMain_header L B T C O rest fromName toName hL hB hT hC, hw]
  rfl

/-- Once the magic number has been accepted the run never throws the
bad-magic exception, and `nLines` has been assigned when the run ends. -/
theorem IsisMain_after_magic (d : List Byte) (fromName : String) (toName : Option String)
    (h : (readField ⟨d, true, 0, false, false⟩ ReadBytes.zero).2.readLong = 1659) :
    (IsisMain (some d) fromName toName).result ≠ Result.thrown ⟨ErrorType.Io,
        "Input file [" ++ fromName ++ "] does not appear to be in ddd format"⟩
      ∧ (IsisMain (some d) fromName toName).state.nLines ≠ none := by
  unfold IsisMain
  simp only [IfStream.openFile, IfStream.is_open, IfStream.seekg, Bool.not_true,
    Bool.false_eq_true, if_false, h, ne_eq, not_true_eq_false]
  split
  · simp
    exact fun h => notDdd_ne_readError _ h.symm
  · exact ⟨(readOffset_exits _ _ _ _ _ _ _ _ _).2.2.2.2.2, by
      rw [(readOffset_exits _ _ _ _ _ _ _ _ _).1]; exact Option.some_ne_none _⟩

/-- A run that ends with `bitsPerBand` assigned went through the whole of
`IsisMain`: the three divisions were defined and the run ended in `finish`. -/
theorem IsisMain_resolved (file : Option (List Byte)) (fromName : String)
    (toName : Option String) (b : Int)
    (hb : (IsisMain file fromName toName).state.bitsPerBand = some b) :
    ∃ fin rb nLines nBytes totalBandBits bitType w nOffset nSamples nBands,
      intDiv nBytes (Int.tdiv totalBandBits 8) = some nSamples
      ∧ intDiv (Int.tdiv totalBandBits 8) w = some nBands
      ∧ intDiv totalBandBits nBands = some b
      ∧ 1024 ≤ nOffset
      ∧ IsisMain file fromName toName
        = finish (resolved fin rb nLines nBytes totalBandBits bitType w nOffset nSamples nBands b)
            fromName toName nLines totalBandBits nOffset nSamples nBands b := by
  unfold IsisMain at hb ⊢
  simp only at hb ⊢
  split at hb
  · simp at hb
  · split at hb
    · simp at hb
    · split at hb
      · simp at hb
      · rename_i h1 h2 h3
        rw [if_neg h1, if_neg h2, if_neg h3]
        generalize findSecond dataTypes _ = q at hb ⊢
        cases q with
        | none => simp [readOffset] at hb
        | some w =>
          simp only [readOffset] at hb ⊢
          obtain ⟨nS, nB, d1, d2, d3⟩ := report_resolved _ _ _ _ _ _ _ _ _ _ _ hb
          refine ⟨_, _, _, _, _, _, w, _, nS, nB, d1, d2, d3, ?_,
            report_of_divs _ _ _ _ _ _ _ _ _ _ _ _ _ d1 d2 d3⟩
          split <;> omega

/-- A run that returns got past the three divisions. -/
theorem IsisMain_done (file : Option (List Byte)) (fromName : String)
    (toName : Option String) (h : (IsisMain file fromName toName).result = Result.done) :
    ∃ b, (IsisMain file fromName toName).state.bitsPerBand = some b := by
  unfold IsisMain at h ⊢
  simp only at h ⊢
  split at h
  · cases h
  · split at h
    · cases h
    · split at h
      · cases h
      · rename_i h1 h2 h3
        rw [if_neg h1, if_neg h2, if_neg h3]
        generalize findSecond dataTypes _ = q at h ⊢
        cases q with
        | none => simp [readOffset] at h
        | some w =>
          simp only [readOffset] at h ⊢
          exact report_done _ _ _ _ _ _ _ _ _ _ h

/-- A file of fewer than 16 bytes whose magic number is accepted is rejected
by the stream test after the fourth field. -/
theorem IsisMain_truncated_early (d : List Byte) (fromName : String) (toName : Option String)
    (hlen : d.length < 16)
    (hm : (readField ⟨d, true, 0, false, false⟩ ReadBytes.zero).2.readLong = 1659) :
    (IsisMain (some d) fromName toName).result = Result.thrown ⟨ErrorType.Io,
        "An error ocurred when reading the input file [" ++ fromName ++ "]"⟩ := by
  have hf := four_reads_fail d ReadBytes.zero hlen
  unfold IsisMain
  simp only [IfStream.openFile, IfStream.is_open, IfStream.seekg, Bool.not_true,
    Bool.false_eq_true, if_false, hm, ne_eq, not_true_eq_false, IfStream.fail, hf,
    Bool.true_or, if_true]

/-- The first read on a file of fewer than four bytes: the stream fails at the
end of the file and the value left in the union is not 1659. -/
theorem readField_short (d : List Byte) (h : d.length < 4) :
    (readField ⟨d, true, 0, false, false⟩ ReadBytes.zero).1 = ⟨d, true, d.length, true, true⟩
      ∧ (readField ⟨d, true, 0, false, false⟩ ReadBytes.zero).2.readLong ≠ 1659 := by
  match d, h with
  | [], _ => exact ⟨rfl, by decide⟩
  | [a], _ =>
    refine ⟨rfl, ?_⟩
    show (0 : Int) + 256 * 0 + 65536 * 0 + 16777216 * (a.val : Int) ≠ 1659
    omega
  | [a, b], _ =>
    refine ⟨rfl, ?_⟩
    show (0 : Int) + 256 * 0 + 65536 * (b.val : Int) + 16777216 * (a.val : Int) ≠ 1659
    omega
  | [a, b, c], _ =>
    refine ⟨rfl, ?_⟩
    show (0 : Int) + 256 * (c.val : Int) + 65536 * (b.val : Int) + 16777216 * (a.val : Int)
      ≠ 1659
    omega
  | _ :: _ :: _ :: _ :: _, h =>
    exfalso
    simp only [List.length_cons] at h
    omega

/-- Truncating division by a positive divisor, in terms of `/`. -/
theorem tdiv_eq_of_pos (a b : Int) (hb : 0 < b) :
    Int.tdiv a b = if 0 ≤ a then a / b else -((-a) / b) := by
  split
  · exact Int.tdiv_eq_ediv (by assumption) (le_of_lt hb)
  · have h2 : Int.tdiv (-(-a)) b = -(Int.tdiv (-a) b) := Int.neg_tdiv (-a) b
    rw [neg_neg] at h2
    rw [h2, Int.tdiv_eq_ediv (by omega) (le_of_lt hb)]

/-- A defined division has a non-zero divisor and the truncated quotient. -/
theorem intDiv_some (a b c : Int) (h : intDiv a b = some c) : b ≠ 0 ∧ c = Int.tdiv a b := by
  unfold intDiv at h
  split at h
  · cases h
  · split at h
    · cases h
    · cases h
      exact ⟨by assumption, rfl⟩

/-- An undefined division has a zero divisor or is `INT_MIN / -1`. -/
theorem intDiv_none (a b : Int) :
    intDiv a b = none ↔ (b = 0 ∨ (a = -2147483648 ∧ b = -1)) := by
  unfold intDiv
  constructor
  · intro h
    split at h
    · exact Or.inl (by assumption)
    · split at h
      · exact Or.inr (by assumption)
      · cases h
  · rintro (h | h)
    · rw [if_pos h]
    · have h0 : b ≠ 0 := by omega
      rw [if_neg h0, if_pos h]

/-- The pixel type selected for a depth, with the depth it stands for. -/
theorem pixelTypeOf_width (b : Int) (ty : PixelType) (h : pixelTypeOf b = some ty) :
    (b = 8 ∧ ty = PixelType.UnsignedByte) ∨ (b = 16 ∧ ty = PixelType.UnsignedWord)
      ∨ (b = 32 ∧ ty = PixelType.Real) := by
  unfold pixelTypeOf at h
  split at h
  · cases h; exact Or.inl ⟨by assumption, rfl⟩
  · split at h
    · cases h; exact Or.inr (Or.inl ⟨by assumption, rfl⟩)
    · split at h
      · cases h; exact Or.inr (Or.inr ⟨by assumption, rfl⟩)
      · cases h

/-- The band count of a header whose total bits cover at least one sample of
width `w`: it is positive and `w` times it is at most the bytes per pixel. -/
theorem nBands_pos (T w : Int) (hw : w = 1 ∨ w = 2 ∨ w = 4 ∨ w = 8) (h : 8 * w ≤ T) :
    0 < Int.tdiv (Int.tdiv T 8) w
      ∧ Int.tdiv (Int.tdiv T 8) w * w ≤ Int.tdiv T 8
      ∧ 8 * (Int.tdiv (Int.tdiv T 8) w * w) ≤ T
      ∧ T < 8 * (Int.tdiv (Int.tdiv T 8) w * w) + 8 * w
      ∧ 0 < Int.tdiv T 8 := by
  have hT : 0 ≤ T := by omega
  have h8 : Int.tdiv T 8 = T / 8 := Int.tdiv_eq_ediv hT (by decide)
  have hq : 0 ≤ T / 8 := by omega
  have hwp : 0 ≤ w := by omega
  rw [h8, Int.tdiv_eq_ediv hq hwp]
  rcases hw with rfl | rfl | rfl | rfl <;> omega

/-- The bits per band of a header whose total bits cover at least one sample of
width `w` lie between `8 * w` and `16 * w`. -/
theorem bitsPerBand_range (T w : Int) (hw : w = 1 ∨ w = 2 ∨ w = 4 ∨ w = 8) (h : 8 * w ≤ T) :
    8 * w ≤ Int.tdiv T (Int.tdiv (Int.tdiv T 8) w)
      ∧ Int.tdiv T (Int.tdiv (Int.tdiv T 8) w) < 16 * w := by
  obtain ⟨hn, -, h1, h2, -⟩ := nBands_pos T w hw h
  generalize Int.tdiv (Int.tdiv T 8) w = n at hn h1 h2 ⊢
  have hT : 0 ≤ T := by omega
  rw [Int.tdiv_eq_ediv hT (le_of_lt hn)]
  constructor
  · apply Int.le_ediv_of_mul_le hn
    rcases hw with rfl | rfl | rfl | rfl <;> omega
  · apply Int.ediv_lt_of_lt_mul hn
    rcases hw with rfl | rfl | rfl | rfl <;> omega

/-- With samples of eight bytes and a non-zero band count no division is
undefined and the bits per band are at least 64. -/
theorem bitsPerBand_wide (T : Int) (hT : isInt32 T)
    (hn : Int.tdiv (Int.tdiv T 8) 8 ≠ 0) :
    Int.tdiv T 8 ≠ 0 ∧ Int.tdiv T 8 ≠ -1
      ∧ ¬ (T = -2147483648 ∧ Int.tdiv (Int.tdiv T 8) 8 = -1)
      ∧ 64 ≤ Int.tdiv T (Int.tdiv (Int.tdiv T 8) 8) := by
  unfold isInt32 at hT
  rw [tdiv_eq_of_pos T 8 (by decide)] at hn ⊢
  by_cases h0 : 0 ≤ T
  · rw [if_pos h0] at hn ⊢
    rw [tdiv_eq_of_pos (T / 8) 8 (by decide), if_pos (by omega)] at hn ⊢
    refine ⟨by omega, by omega, by omega, ?_⟩
    have hpos : 0 < T / 8 / 8 := by omega
    rw [Int.tdiv_eq_ediv h0 (le_of_lt hpos)]
    apply Int.le_ediv_of_mul_le hpos
    omega
  · rw [if_neg h0] at hn ⊢
    rw [tdiv_eq_of_pos (-(-T / 8)) 8 (by decide), if_neg (by omega)] at hn ⊢
    rw [neg_neg] at hn ⊢
    refine ⟨by omega, by omega, by omega, ?_⟩
    have hpos : 0 < -T / 8 / 8 := by omega
    have hneg : Int.tdiv (-(-T)) (-(-T / 8 / 8)) = Int.tdiv (-T) (-T / 8 / 8) :=
      Int.neg_tdiv_neg (-T) (-T / 8 / 8)
    rw [neg_neg] at hneg
    rw [hneg, Int.tdiv_eq_ediv (by omega) (le_of_lt hpos)]
    apply Int.le_ediv_of_mul_le hpos
    omega

/-- For non-negative total bits, a zero divisor is met exactly when the total
bits do not cover one sample. -/
theorem zero_divisor_iff (T w : Int) (hw : w = 1 ∨ w = 2 ∨ w = 4 ∨ w = 8) (hT : 0 ≤ T) :
    (T < 8 * w ↔ (Int.tdiv T 8 = 0 ∨ Int.tdiv (Int.tdiv T 8) w = 0))
      ∧ 0 ≤ Int.tdiv T 8 ∧ 0 ≤ Int.tdiv (Int.tdiv T 8) w := by
  have h8 : Int.tdiv T 8 = T / 8 := Int.tdiv_eq_ediv hT (by decide)
  have hq : 0 ≤ T / 8 := by omega
  have hwp : 0 ≤ w := by omega
  rw [h8, Int.tdiv_eq_ediv hq hwp]
  rcases hw with rfl | rfl | rfl | rfl <;> omega

/-- The line of samples fits the bytes per line. -/
theorem line_fits (B T w : Int) (hw : w = 1 ∨ w = 2 ∨ w = 4 ∨ w = 8) (hB : 0 ≤ B)
    (h : 8 * w ≤ T) :
    Int.tdiv B (Int.tdiv T 8) * Int.tdiv (Int.tdiv T 8) w * w ≤ B := by
  obtain ⟨-, h1, -, -, hq⟩ := nBands_pos T w hw h
  generalize Int.tdiv (Int.tdiv T 8) w = n at h1 ⊢
  generalize Int.tdiv T 8 = q at h1 hq ⊢
  rw [Int.tdiv_eq_ediv hB (le_of_lt hq)]
  have h2 : B / q * q ≤ B := Int.ediv_mul_le B (by omega)
  have h3 : 0 ≤ B / q := Int.ediv_nonneg hB (le_of_lt hq)
  calc B / q * n * w = B / q * (n * w) := by ring
    _ ≤ B / q * q := Int.mul_le_mul_of_nonneg_left h1 h3
    _ ≤ B := h2

/-- The three divisions are defined when no divisor is zero and the first
quotient is representable. -/
theorem divs_defined (B T k w : Int) (hw : findSecond dataTypes k = some w)
    (h8 : Int.tdiv T 8 ≠ 0) (hn : Int.tdiv (Int.tdiv T 8) w ≠ 0)
    (hov : ¬ (B = -2147483648 ∧ Int.tdiv T 8 = -1)) :
    intDiv B (Int.tdiv T 8) = some (Int.tdiv B (Int.tdiv T 8))
      ∧ intDiv (Int.tdiv T 8) w = some (Int.tdiv (Int.tdiv T 8) w)
      ∧ intDiv T (Int.tdiv (Int.tdiv T 8) w)
        = some (Int.tdiv T (Int.tdiv (Int.tdiv T 8) w)) := by
  have hwc := width_of_findSecond k w hw
  refine ⟨?_, ?_, ?_⟩
  · simp only [intDiv, if_neg h8, if_neg hov]
  · have h0 : w ≠ 0 := by omega
    have h1 : ¬ (Int.tdiv T 8 = -2147483648 ∧ w = -1) := by omega
    simp only [intDiv, if_neg h0, if_neg h1]
  · have h1 : ¬ (T = -2147483648 ∧ Int.tdiv (Int.tdiv T 8) w = -1) := by
      rintro ⟨rfl, h⟩
      rcases hwc with rfl | rfl | rfl | rfl <;> revert h <;> decide
    simp only [intDiv, if_neg hn, if_neg h1]

/-- The value of `IsisMain` on a file that starts with a whole header whose
lookup succeeds and whose three divisions are defined. -/
theorem IsisMain_header_divs (L B T C O w nSamples nBands b : Int) (rest : List Byte)
    (fromName : String) (toName : Option String) (hL : isInt32 L) (hB : isInt32 B)
    (hT : isInt32 T) (hC : isInt32 C) (hO : isInt32 O)
    (hw : findSecond dataTypes (if C = 0 then T else C) = some w)
    (d1 : intDiv B (Int.tdiv T 8) = some nSamples)
    (d2 : intDiv (Int.tdiv T 8) w = some nBands)
    (d3 : intDiv T nBands = some b) :
    IsisMain (some (encodeHeader 1659 L B T C O ++ rest)) fromName toName
      = finish (resolved ⟨encodeHeader 1659 L B T C O ++ rest, true, 24, false, false⟩
          (hostBytes O) L B T C w (max O 1024) nSamples nBands b)
          fromName toName L T (max O 1024) nSamples nBands b := by
  have hmax : (if O < 1024 then (1024 : Int) else O) = max O 1024 := by
    split <;> omega
  rw [IsisMain_header_some L B T C O w rest fromName toName hL hB hT hC hO hw, hmax]
  exact report_of_divs _ _ _ _ _ _ _ _ _ _ _ _ _ d1 d2 d3

/-- The end of the run leaves the log as it is. -/
theorem finish_log (s : State) (fromName : String) (toName : Option String)
    (nLines totalBandBits nOffset nSamples nBands bitsPerBand : Int) :
    (finish s fromName toName nLines totalBandBits nOffset nSamples nBands
      bitsPerBand).state.log = s.log := by
  cases toName with
  | none => rfl
  | some t =>
    simp only [finish]
    cases hp : pixelTypeOf bitsPerBand with
    | none => rw [importTo_none _ _ _ _ _ _ _ _ _ hp]
    | some ty => rw [importTo_some _ _ _ _ _ _ _ _ _ ty hp]

/-- The end of the run returns or throws the unsupported-depth exception. -/
theorem finish_result (s : State) (fromName : String) (toName : Option String)
    (nLines totalBandBits nOffset nSamples nBands bitsPerBand : Int) :
    (finish s fromName toName nLines totalBandBits nOffset nSamples nBands
        bitsPerBand).result = Result.done
      ∨ ((finish s fromName toName nLines totalBandBits nOffset nSamples nBands
          bitsPerBand).result
            = Result.thrown ⟨ErrorType.Io, unsupportedMessage totalBandBits⟩
        ∧ (finish s fromName toName nLines totalBandBits nOffset nSamples nBands
          bitsPerBand).state = s
        ∧ pixelTypeOf bitsPerBand = none ∧ toName ≠ none) := by
  cases toName with
  | none => exact Or.inl rfl
  | some t =>
    simp only [finish]
    cases hp : pixelTypeOf bitsPerBand with
    | none =>
      rw [importTo_none _ _ _ _ _ _ _ _ _ hp]
      exact Or.inr ⟨rfl, rfl, rfl, by simp⟩
    | some ty =>
      rw [importTo_some _ _ _ _ _ _ _ _ _ ty hp]
      exact Or.inl rfl

/-- How `report` ends: undefined at the first division that is, otherwise as
`finish` does. -/
theorem report_cases (fin : IfStream) (rb : ReadBytes) (fromName : String)
    (toName : Option String) (nLines nBytes totalBandBits bitType w nOffset : Int) :
    ((report fin rb fromName toName nLines nBytes totalBandBits bitType w nOffset).result
          = Result.undefined
        ∧ (intDiv nBytes (Int.tdiv totalBandBits 8) = none
          ∨ intDiv (Int.tdiv totalBandBits 8) w = none
          ∨ ∃ nSamples nBands, intDiv nBytes (Int.tdiv totalBandBits 8) = some nSamples
            ∧ intDiv (Int.tdiv totalBandBits 8) w = some nBands
            ∧ intDiv totalBandBits nBands = none
            ∧ (report fin rb fromName toName nLines nBytes totalBandBits bitType w
                nOffset).state.nBands = some nBands
            ∧ (report fin rb fromName toName nLines nBytes totalBandBits bitType w
                nOffset).state.log
              = [fileInfo nLines nBytes totalBandBits nSamples nBands nOffset]))
      ∨ ∃ nSamples nBands b, intDiv nBytes (Int.tdiv totalBandBits 8) = some nSamples
          ∧ intDiv (Int.tdiv totalBandBits 8) w = some nBands
          ∧ intDiv totalBandBits nBands = some b
          ∧ report fin rb fromName toName nLines nBytes totalBandBits bitType w nOffset
            = finish (resolved fin rb nLines nBytes totalBandBits bitType w nOffset nSamples
                nBands b) fromName toName nLines totalBandBits nOffset nSamples nBands b := by
  cases d1 : intDiv nBytes (Int.tdiv totalBandBits 8) with
  | none => exact Or.inl ⟨by simp [report, d1], Or.inl rfl⟩
  | some nSamples =>
    cases d2 : intDiv (Int.tdiv totalBandBits 8) w with
    | none => exact Or.inl ⟨by simp [report, d1, d2], Or.inr (Or.inl rfl)⟩
    | some nBands =>
      cases d3 : intDiv totalBandBits nBands with
      | none =>
        exact Or.inl ⟨by simp [report, d1, d2, d3],
          Or.inr (Or.inr ⟨nSamples, nBands, rfl, rfl, d3, by simp [report, d1, d2, d3],
            by simp [report, d1, d2, d3]⟩)⟩
      | some b =>
        exact Or.inr ⟨nSamples, nBands, b, rfl, rfl, d3,
          report_of_divs _ _ _ _ _ _ _ _ _ _ _ _ _ d1 d2 d3⟩

/-- The one exception `report` can throw is the unsupported-depth one. -/
theorem report_thrown (fin : IfStream) (rb : ReadBytes) (fromName : String)
    (toName : Option String) (nLines nBytes totalBandBits bitType w nOffset : Int)
    (e : IException)
    (h : (report fin rb fromName toName nLines nBytes totalBandBits bitType w
      nOffset).result = Result.thrown e) :
    e = ⟨ErrorType.Io, unsupportedMessage totalBandBits⟩ := by
  rcases report_cases fin rb fromName toName nLines nBytes totalBandBits bitType w nOffset
    with ⟨hu, -⟩ | ⟨nS, nB, b, -, -, -, hrun⟩
  · rw [hu] at h
    cases h
  · rw [hrun] at h
    rcases finish_result (resolved fin rb nLines nBytes totalBandBits bitType w nOffset nS nB b)
      fromName toName nLines totalBandBits nOffset nS nB b with hd | ⟨ht, -⟩
    · rw [hd] at h
      cases h
    · rw [ht] at h
      cases h
      rfl

/-- Every exception `IsisMain` throws is one of four. -/
theorem IsisMain_thrown (file : Option (List Byte)) (fromName : String)
    (toName : Option String) (e : IException)
    (h : (IsisMain file fromName toName).result = Result.thrown e) :
    e = ⟨ErrorType.Io, "Cannot open input file [" ++ fromName ++ "]"⟩
      ∨ e = ⟨ErrorType.Io, "Input file [" ++ fromName ++ "] does not appear to be in ddd format"⟩
      ∨ e = ⟨ErrorType.Io, "An error ocurred when reading the input file [" ++ fromName ++ "]"⟩
      ∨ ∃ totalBandBits,
          (IsisMain file fromName toName).state.totalBandBits = some totalBandBits
            ∧ e = ⟨ErrorType.Io, unsupportedMessage totalBandBits⟩ := by
  unfold IsisMain at h ⊢
  simp only at h ⊢
  split at h
  · cases h
    exact Or.inl rfl
  · split at h
    · cases h
      exact Or.inr (Or.inl rfl)
    · split at h
      · cases h
        exact Or.inr (Or.inr (Or.inl rfl))
      · rename_i h1 h2 h3
        rw [if_neg h1, if_neg h2, if_neg h3]
        generalize findSecond dataTypes _ = q at h ⊢
        cases q with
        | none => simp [readOffset] at h
        | some w =>
          simp only [readOffset] at h ⊢
          exact Or.inr (Or.inr (Or.inr ⟨_, (report_exits _ _ _ _ _ _ _ _ _ _).2.2.1,
            report_thrown _ _ _ _ _ _ _ _ _ _ e h⟩))

/-- The run on a legacy header with `TO` entered, for a depth the `switch`
supports. -/
theorem IsisMain_legacy (L B T O w : Int) (ty : PixelType) (rest : List Byte)
    (fromName toName : String) (hL : isInt32 L) (hB : isInt32 B) (hT : isInt32 T)
    (hO : isInt32 O) (hw : findSecond dataTypes T = some w) (h8 : 8 * w ≤ T)
    (hty : pixelTypeOf (Int.tdiv T (Int.tdiv (Int.tdiv T 8) w)) = some ty) :
    IsisMain (some (encodeHeader 1659 L B T 0 O ++ rest)) fromName (some toName)
      = { state :=
            { resolved ⟨encodeHeader 1659 L B T 0 O ++ rest, true, 24, false, false⟩
                (hostBytes O) L B T 0 w (max O 1024) (Int.tdiv B (Int.tdiv T 8))
                (Int.tdiv (Int.tdiv T 8) w) (Int.tdiv T (Int.tdiv (Int.tdiv T 8) w)) with
              p := some (startedImport ty fromName toName L (max O 1024)
                (Int.tdiv B (Int.tdiv T 8)) (Int.tdiv (Int.tdiv T 8) w)) },
          result := Result.done } := by
  have hw2 : findSecond dataTypes (if (0 : Int) = 0 then T else 0) = some w := by
    rw [if_pos rfl]
    exact hw
  have hwc := width_of_findSecond _ w hw
  obtain ⟨hn, -, -, -, hq⟩ := nBands_pos T w hwc h8
  obtain ⟨d1, d2, d3⟩ := divs_defined B T _ w hw (by omega) (by omega) (by omega)
  rw [IsisMain_header_divs L B T 0 O w _ _ _ rest fromName (some toName) hL hB hT (by decide)
    hO hw2 d1 d2 d3]
  simp only [finish]
  exact importTo_some _ _ _ _ _ _ _ _ _ ty hty

/-- The encoding of an unsigned word is the encoding of the `int` it wraps to. -/
theorem encodeInt32_wrap (u : Int) : encodeInt32 (u - 4294967296) = encodeInt32 u := by
  have h : (u - 4294967296) % 4294967296 = u % 4294967296 := by omega
  simp only [encodeInt32, h]

/-! ## The claims -/

/-- C1: Bit-Type Resolver.  On every file that starts with a whole header with
magic number 1659, a non-zero bit type `C` that is a key of the fixed table
resolves to the table entry of `C`, and a zero bit type resolves to the table
entry of `totalBandBits` when that is a key (the table is the literal list
given). -/
theorem C1_bit_type_resolver (L B T C O : Int) (rest : List Byte) (fromName : String)
    (toName : Option String) (hL : isInt32 L) (hB : isInt32 B) (hT : isInt32 T)
    (hC : isInt32 C) :
    dataTypes = [(1450901768, 1), (1450902032, 2), (1450902288, 2), (1450902560, 4),
        (1450902816, 4), (1450903072, 4), (1450903360, 8), (8, 1), (16, 2), (48, 2)]
      ∧ (C ≠ 0 → ∀ w, (C, w) ∈ dataTypes →
          (IsisMain (some (encodeHeader 1659 L B T C O ++ rest)) fromName toName).state.dataTypeBytes
            = some w)
      ∧ (C = 0 → ∀ w, (T, w) ∈ dataTypes →
          (IsisMain (some (encodeHeader 1659 L B T C O ++ rest)) fromName toName).state.dataTypeBytes
            = some w) := by
  rw [IsisMain_header L B T C O rest fromName toName hL hB hT hC]
  refine ⟨rfl, ?_, ?_⟩
  · intro h0 w hw
    rw [if_neg h0, findSecond_of_mem C w hw]
    exact (readOffset_exits _ _ _ _ _ _ _ _ _).2.2.2.2.1
  · intro h0 w hw
    rw [if_pos h0, findSecond_of_mem T w hw]
    exact (readOffset_exits _ _ _ _ _ _ _ _ _).2.2.2.2.1

/-- C1 at the headers (1659, 100, 400, 32, 8, 1024) and (1659, 100, 400, 48, 0, 1024). -/
theorem C1_bit_type_resolver_witness :
    (IsisMain (some (encodeHeader 1659 100 400 32 8 1024 ++ [])) "in.ddd" none).state.dataTypeBytes
        = some 1
      ∧ (IsisMain (some (encodeHeader 1659 100 400 48 0 1024 ++ [])) "in.ddd" none).state.dataTypeBytes
        = some 2 :=
  ⟨(C1_bit_type_resolver 100 400 32 8 1024 [] "in.ddd" none (by decide) (by decide) (by decide)
      (by decide)).2.1 (by decide) 1 (by decide),
   (C1_bit_type_resolver 100 400 48 0 1024 [] "in.ddd" none (by decide) (by decide) (by decide)
      (by decide)).2.2 rfl 2 (by decide)⟩

/-- C2: on the header (1659, 100, 400, 32, 0, 1024) the key 32 is not in the
table; the run throws nothing: it dereferences `end()` and is undefined, with
nothing logged and no import set up. -/
theorem C2_unknown_sample_type_is_undefined :
    findSecond dataTypes 32 = none
      ∧ IsisMain (some (encodeHeader 1659 100 400 32 0 1024)) "in.ddd" (some "out.cub")
        = { state :=
              { fin := ⟨encodeHeader 1659 100 400 32 0 1024, true, 20, false, false⟩,
                readBytes := ⟨0, 0, 0, 0⟩, nLines := some 100, nBytes := some 400,
                totalBandBits := some 32, bitType := some 0 },
            result := Result.undefined } := by
  decide

/-- C3: Format Validator.  On every input of at least four bytes the magic
check passes exactly when the first four bytes, read as a big-endian integer,
are 1659; when they are not, the run throws the exception naming the input
file with the cursor at 4, the stream still good, and no local after the
magic number assigned. -/
theorem C3_format_validator (a b c e : Byte) (rest : List Byte) (fromName : String)
    (toName : Option String) :
    let magic : Int :=
      16777216 * (a.val : Int) + 65536 * (b.val : Int) + 256 * (c.val : Int) + (e.val : Int)
    let run := IsisMain (some (a :: b :: c :: e :: rest)) fromName toName
    let notDdd := Result.thrown ⟨ErrorType.Io,
      "Input file [" ++ fromName ++ "] does not appear to be in ddd format"⟩
    (run.result ≠ notDdd ↔ magic = 1659)
      ∧ (run.state.nLines ≠ none ↔ magic = 1659)
      ∧ (magic ≠ 1659 →
          run = { state := { fin := ⟨a :: b :: c :: e :: rest, true, 4, false, false⟩,
                             readBytes := ⟨e, c, b, a⟩ },
                  result := notDdd }) := by
  intro magic run notDdd
  have h1 : readField ⟨a :: b :: c :: e :: rest, true, 0, false, false⟩ ReadBytes.zero
      = (⟨a :: b :: c :: e :: rest, true, 4, false, false⟩, ⟨e, c, b, a⟩) :=
    readField_four _ true 0 a b c e rest ReadBytes.zero rfl
  have hv : (ReadBytes.mk e c b a).readLong = magic := by
    simp only [ReadBytes.readLong, magic]; ring
  have hbad : magic ≠ 1659 →
      run = { state := { fin := ⟨a :: b :: c :: e :: rest, true, 4, false, false⟩,
                         readBytes := ⟨e, c, b, a⟩ },
              result := notDdd } := by
    intro hne
    simp only [run, notDdd]
    unfold IsisMain
    simp [IfStream.openFile, IfStream.is_open, IfStream.seekg, h1, hv, hne]
  by_cases hm : magic = 1659
  · have h := IsisMain_after_magic (a :: b :: c :: e :: rest) fromName toName
      (by rw [h1]; exact hv.trans hm)
    exact ⟨⟨fun _ => hm, fun _ => h.1⟩, ⟨fun _ => hm, fun _ => h.2⟩, fun hne => absurd hm hne⟩
  · have h := hbad hm
    refine ⟨⟨fun hr => absurd (by rw [h]) hr, fun h2 => absurd h2 hm⟩,
      ⟨fun hr => absurd (by rw [h]) hr, fun h2 => absurd h2 hm⟩, hbad⟩

/-- C3 at a six-byte file whose first four bytes hold 1660. -/
theorem C3_format_validator_witness :
    IsisMain (some [0, 0, 6, 124, 1, 2]) "in.ddd" (some "out.cub")
      = { state := { fin := ⟨[0, 0, 6, 124, 1, 2], true, 4, false, false⟩,
                     readBytes := ⟨124, 6, 0, 0⟩ },
          result := Result.thrown ⟨ErrorType.Io,
            "Input file [" ++ "in.ddd" ++ "] does not appear to be in ddd format"⟩ } :=
  (C3_format_validator 0 0 6 124 [1, 2] "in.ddd" (some "out.cub")).2.2 (by decide)

/-- C4, amended: Geometry Resolver.  For every header that passes the magic check
and the lookup with non-zero divisors, and whose first quotient is
representable (not `bytesPerLine = -2^31` with `totalBandBits / 8 = -1`),
`nSamples = nBytes / (totalBandBits / 8)`,
`nBands = (totalBandBits / 8) / dataTypeBytes` and
`bitsPerBand = totalBandBits / nBands`, every `/` truncating. -/
theorem C4_geometry (L B T C O w : Int) (rest : List Byte) (fromName : String)
    (toName : Option String) (hL : isInt32 L) (hB : isInt32 B) (hT : isInt32 T)
    (hC : isInt32 C) (hO : isInt32 O)
    (hw : findSecond dataTypes (if C = 0 then T else C) = some w)
    (h8 : Int.tdiv T 8 ≠ 0) (hw0 : w ≠ 0) (hn : Int.tdiv (Int.tdiv T 8) w ≠ 0)
    (hov : ¬ (B = -2147483648 ∧ Int.tdiv T 8 = -1)) :
    (IsisMain (some (encodeHeader 1659 L B T C O ++ rest)) fromName toName).state.nSamples
        = some (Int.tdiv B (Int.tdiv T 8))
      ∧ (IsisMain (some (encodeHeader 1659 L B T C O ++ rest)) fromName toName).state.nBands
        = some (Int.tdiv (Int.tdiv T 8) w)
      ∧ (IsisMain (some (encodeHeader 1659 L B T C O ++ rest)) fromName toName).state.bitsPerBand
        = some (Int.tdiv T (Int.tdiv (Int.tdiv T 8) w)) := by
  have hwc := width_of_findSecond _ w hw
  have d1 : intDiv B (Int.tdiv T 8) = some (Int.tdiv B (Int.tdiv T 8)) := by
    simp only [intDiv, if_neg h8, if_neg hov]
  have d2 : intDiv (Int.tdiv T 8) w = some (Int.tdiv (Int.tdiv T 8) w) := by
    have : ¬ (Int.tdiv T 8 = -2147483648 ∧ w = -1) := by omega
    simp only [intDiv, if_neg hw0, if_neg this]
  have d3 : intDiv T (Int.tdiv (Int.tdiv T 8) w)
      = some (Int.tdiv T (Int.tdiv (Int.tdiv T 8) w)) := by
    have : ¬ (T = -2147483648 ∧ Int.tdiv (Int.tdiv T 8) w = -1) := by
      rintro ⟨rfl, h⟩
      rcases hwc with rfl | rfl | rfl | rfl <;> revert h <;> decide
    simp only [intDiv, if_neg hn, if_neg this]
  rw [IsisMain_header_some L B T C O w rest fromName toName hL hB hT hC hO hw,
    report_of_divs _ _ _ _ _ _ _ _ _ _ _ _ _ d1 d2 d3]
  cases toName with
  | none => exact ⟨rfl, rfl, rfl⟩
  | some t =>
    simp only [finish, importTo]
    split <;> exact ⟨rfl, rfl, rfl⟩

/-- C4 at the header (1659, 100, 400, 32, 8, 1024). -/
theorem C4_geometry_witness :
    (IsisMain (some (encodeHeader 1659 100 400 32 8 1024 ++ [])) "in.ddd" none).state.nSamples
        = some (Int.tdiv 400 (Int.tdiv 32 8))
      ∧ (IsisMain (some (encodeHeader 1659 100 400 32 8 1024 ++ [])) "in.ddd" none).state.nBands
        = some (Int.tdiv (Int.tdiv 32 8) 1)
      ∧ (IsisMain (some (encodeHeader 1659 100 400 32 8 1024 ++ [])) "in.ddd" none).state.bitsPerBand
        = some (Int.tdiv 32 (Int.tdiv (Int.tdiv 32 8) 1)) :=
  C4_geometry 100 400 32 8 1024 1 [] "in.ddd" none (by decide) (by decide) (by decide)
    (by decide) (by decide) (by decide) (by decide) (by decide) (by decide) (by decide)

/-- C4 as stated fails at the header (1659, 1, -2^31, -8, 8, 1024): the lookup
succeeds and no divisor is zero, yet `nSamples` is not the truncated quotient
`2^31`: the division `INT_MIN / -1` is undefined. -/
theorem C4_geometry_counterexample :
    findSecond dataTypes (if (8 : Int) = 0 then -8 else 8) = some 1
      ∧ Int.tdiv (-8) 8 ≠ 0 ∧ (1 : Int) ≠ 0 ∧ Int.tdiv (Int.tdiv (-8) 8) 1 ≠ 0
      ∧ (IsisMain (some (encodeHeader 1659 1 (-2147483648) (-8) 8 1024)) "in.ddd" none).state.nSamples
          ≠ some (Int.tdiv (-2147483648) (Int.tdiv (-8) 8))
      ∧ (IsisMain (some (encodeHeader 1659 1 (-2147483648) (-8) 8 1024)) "in.ddd" none).result
          = Result.undefined := by
  decide

/-- C5: Import Plan Builder element type.  With `TO` entered, whenever the run
has resolved `bitsPerBand = b`: `b = 8` sets `UnsignedByte`, `b = 16` sets
`UnsignedWord`, `b = 32` sets `Real` (the import is started), and the run
throws exactly when `b` is none of 8, 16, 32, in which case the exception is
the unsupported-depth one and no setter of the import object was called. -/
theorem C5_element_type (file : Option (List Byte)) (fromName toName : String) (b : Int)
    (hb : (IsisMain file fromName (some toName)).state.bitsPerBand = some b) :
    (b = 8 → (IsisMain file fromName (some toName)).result = Result.done
        ∧ ∃ p, (IsisMain file fromName (some toName)).state.p = some p
          ∧ p.pixelType = some PixelType.UnsignedByte ∧ p.started = true)
      ∧ (b = 16 → (IsisMain file fromName (some toName)).result = Result.done
        ∧ ∃ p, (IsisMain file fromName (some toName)).state.p = some p
          ∧ p.pixelType = some PixelType.UnsignedWord ∧ p.started = true)
      ∧ (b = 32 → (IsisMain file fromName (some toName)).result = Result.done
        ∧ ∃ p, (IsisMain file fromName (some toName)).state.p = some p
          ∧ p.pixelType = some PixelType.Real ∧ p.started = true)
      ∧ ((∃ e, (IsisMain file fromName (some toName)).result = Result.thrown e)
          ↔ (b ≠ 8 ∧ b ≠ 16 ∧ b ≠ 32))
      ∧ ((b ≠ 8 ∧ b ≠ 16 ∧ b ≠ 32) →
          ∃ totalBandBits,
            (IsisMain file fromName (some toName)).state.totalBandBits = some totalBandBits
            ∧ (IsisMain file fromName (some toName)).result
              = Result.thrown ⟨ErrorType.Io, unsupportedMessage totalBandBits⟩
            ∧ (IsisMain file fromName (some toName)).state.p = some {}) := by
  obtain ⟨fin, rb, nLines, nBytes, T, C, w, nOffset, nS, nB, -, -, -, -, hrun⟩ :=
    IsisMain_resolved file fromName (some toName) b hb
  rw [hrun]
  simp only [finish]
  cases hp : pixelTypeOf b with
  | none =>
    have hne := (pixelTypeOf_eq_none b).1 hp
    rw [importTo_none _ _ _ _ _ _ _ _ _ hp]
    refine ⟨fun h => absurd h hne.1, fun h => absurd h hne.2.1, fun h => absurd h hne.2.2,
      ⟨fun _ => hne, fun _ => ⟨_, rfl⟩⟩, fun _ => ⟨T, rfl, rfl, rfl⟩⟩
  | some t =>
    have hnn : ¬ (b ≠ 8 ∧ b ≠ 16 ∧ b ≠ 32) := by
      intro h
      rw [(pixelTypeOf_eq_none b).2 h] at hp
      cases hp
    rw [importTo_some _ _ _ _ _ _ _ _ _ t hp]
    refine ⟨?_, ?_, ?_, ⟨?_, fun h => absurd h hnn⟩, fun h => absurd h hnn⟩
    · rintro rfl
      exact ⟨rfl, _, rfl, by cases hp; rfl, rfl⟩
    · rintro rfl
      exact ⟨rfl, _, rfl, by cases hp; rfl, rfl⟩
    · rintro rfl
      exact ⟨rfl, _, rfl, by cases hp; rfl, rfl⟩
    · rintro ⟨e, he⟩
      cases he

/-- C5 at the header (1659, 100, 400, 32, 8, 1024), where `bitsPerBand = 8`. -/
theorem C5_element_type_witness :
    (IsisMain (some (encodeHeader 1659 100 400 32 8 1024)) "in.ddd" (some "out.cub")).result
        = Result.done
      ∧ ∃ p, (IsisMain (some (encodeHeader 1659 100 400 32 8 1024)) "in.ddd"
          (some "out.cub")).state.p = some p
        ∧ p.pixelType = some PixelType.UnsignedByte ∧ p.started = true :=
  (C5_element_type (some (encodeHeader 1659 100 400 32 8 1024)) "in.ddd" "out.cub" 8
    (by decide)).1 rfl

/-- C6: data-offset clamp.  For every header whose lookup succeeds, `nOffset` is
`max O 1024`: 1024 for `O < 1024`, `O` otherwise; and a header with a small
offset ends, logs and sets up the import exactly as the same header with
offset 1024 does, so a small offset is never a reason for rejection. -/
theorem C6_offset_clamp (L B T C O w : Int) (rest : List Byte) (fromName : String)
    (toName : Option String) (hL : isInt32 L) (hB : isInt32 B) (hT : isInt32 T)
    (hC : isInt32 C) (hO : isInt32 O)
    (hw : findSecond dataTypes (if C = 0 then T else C) = some w) :
    (IsisMain (some (encodeHeader 1659 L B T C O ++ rest)) fromName toName).state.nOffset
        = some (max O 1024)
      ∧ (O < 1024 →
          (IsisMain (some (encodeHeader 1659 L B T C O ++ rest)) fromName toName).state.nOffset
            = some 1024)
      ∧ (1024 ≤ O →
          (IsisMain (some (encodeHeader 1659 L B T C O ++ rest)) fromName toName).state.nOffset
            = some O)
      ∧ (O < 1024 →
          (IsisMain (some (encodeHeader 1659 L B T C O ++ rest)) fromName toName).result
              = (IsisMain (some (encodeHeader 1659 L B T C 1024 ++ rest)) fromName toName).result
            ∧ (IsisMain (some (encodeHeader 1659 L B T C O ++ rest)) fromName toName).state.log
              = (IsisMain (some (encodeHeader 1659 L B T C 1024 ++ rest)) fromName
                  toName).state.log
            ∧ (IsisMain (some (encodeHeader 1659 L B T C O ++ rest)) fromName toName).state.p
              = (IsisMain (some (encodeHeader 1659 L B T C 1024 ++ rest)) fromName
                  toName).state.p) := by
  have hrun := IsisMain_header_some L B T C O w rest fromName toName hL hB hT hC hO hw
  have hoff := (report_exits ⟨encodeHeader 1659 L B T C O ++ rest, true, 24, false, false⟩
    (hostBytes O) fromName toName L B T C w (if O < 1024 then 1024 else O)).2.2.2.2.2.1
  rw [← hrun] at hoff
  refine ⟨?_, ?_, ?_, ?_⟩
  · have hmax : (if O < 1024 then (1024 : Int) else O) = max O 1024 := by
      split <;> omega
    rw [hoff, hmax]
  · intro h
    rw [hoff, if_pos h]
  · intro h
    rw [hoff, if_neg (by omega)]
  · intro h
    rw [hrun, IsisMain_header_some L B T C 1024 w rest fromName toName hL hB hT hC (by decide) hw,
      if_pos h, if_neg (by decide)]
    exact report_indep _ _ _ _ _ _ _ _ _ _ _ _

/-- C6 at the header (1659, 100, 400, 32, 8, 500): the offset becomes 1024. -/
theorem C6_offset_clamp_witness :
    (IsisMain (some (encodeHeader 1659 100 400 32 8 500 ++ [])) "in.ddd"
        (some "out.cub")).state.nOffset = some 1024 :=
  (C6_offset_clamp 100 400 32 8 500 1 [] "in.ddd" (some "out.cub") (by decide) (by decide)
    (by decide) (by decide) (by decide) (by decide)).2.1 (by decide)

/-- C7, amended: interleave selection.  For every run with `TO` entered that
returns, the import was started, and its organization was set to `BIP` when
`nBands > 1` and was not set at all (left at the default of `ProcessImport`)
when `nBands ≤ 1`. -/
theorem C7_interleave (file : Option (List Byte)) (fromName toName : String)
    (h : (IsisMain file fromName (some toName)).result = Result.done) :
    ∃ p n, (IsisMain file fromName (some toName)).state.p = some p
      ∧ p.started = true
      ∧ (IsisMain file fromName (some toName)).state.nBands = some n
      ∧ (n > 1 → p.organization = some Interleave.BIP)
      ∧ (n ≤ 1 → p.organization = none) := by
  obtain ⟨b, hb⟩ := IsisMain_done file fromName (some toName) h
  obtain ⟨fin, rb, nLines, nBytes, T, C, w, nOffset, nS, nB, -, -, -, -, hrun⟩ :=
    IsisMain_resolved file fromName (some toName) b hb
  rw [hrun] at h ⊢
  obtain ⟨ty, -, hfin⟩ := finish_done _ _ _ _ _ _ _ _ _ h
  rw [hfin]
  refine ⟨_, nB, rfl, rfl, rfl, ?_, ?_⟩
  · intro hn
    simp only [startedImport, if_pos hn]
  · intro hn
    have : ¬ nB > 1 := by omega
    simp only [startedImport, if_neg this]

/-- C7 amended, at the header (1659, 100, 400, 32, 8, 1024). -/
theorem C7_interleave_witness :
    ∃ p n, (IsisMain (some (encodeHeader 1659 100 400 32 8 1024)) "in.ddd"
        (some "out.cub")).state.p = some p
      ∧ p.started = true
      ∧ (IsisMain (some (encodeHeader 1659 100 400 32 8 1024)) "in.ddd"
        (some "out.cub")).state.nBands = some n
      ∧ (n > 1 → p.organization = some Interleave.BIP)
      ∧ (n ≤ 1 → p.organization = none) :=
  C7_interleave (some (encodeHeader 1659 100 400 32 8 1024)) "in.ddd" "out.cub" (by decide)

/-- C7 as stated fails at the header (1659, 100, 100, 8, 8, 1024): the import
is started with one band and `SetOrganization` was never called. -/
theorem C7_single_band_counterexample :
    (IsisMain (some (encodeHeader 1659 100 100 8 8 1024)) "in.ddd" (some "out.cub")).result
        = Result.done
      ∧ (IsisMain (some (encodeHeader 1659 100 100 8 8 1024)) "in.ddd"
          (some "out.cub")).state.nBands = some 1
      ∧ (IsisMain (some (encodeHeader 1659 100 100 8 8 1024)) "in.ddd"
          (some "out.cub")).state.p
        = some { pixelType := some PixelType.UnsignedByte, organization := none,
                 dimensions := some (100, 100, 1), fileHeaderBytes := some 1024,
                 byteOrder := some ByteOrder.Msb, inputFile := some "in.ddd",
                 outputCube := some "out.cub", started := true } := by
  decide

/-- C8: plan contents.  For every header for which the run with `TO` entered
returns, the import was started with dimensions `(nSamples, nLines, nBands)`,
file header bytes `max O 1024`, byte order `Msb`, and the input file `FROM`;
for the header (1659, 100, 400, 32, 8, 1024) it is 100 samples, 100 lines,
4 bands, `UnsignedByte`, `BIP`, 1024 header bytes. -/
theorem C8_plan_contents (L B T C O : Int) (rest : List Byte) (fromName toName : String)
    (hL : isInt32 L) (hB : isInt32 B) (hT : isInt32 T) (hC : isInt32 C) (hO : isInt32 O)
    (h : (IsisMain (some (encodeHeader 1659 L B T C O ++ rest)) fromName
      (some toName)).result = Result.done) :
    (∃ p nSamples nBands,
      (IsisMain (some (encodeHeader 1659 L B T C O ++ rest)) fromName (some toName)).state.p
          = some p
        ∧ (IsisMain (some (encodeHeader 1659 L B T C O ++ rest)) fromName
            (some toName)).state.nSamples = some nSamples
        ∧ (IsisMain (some (encodeHeader 1659 L B T C O ++ rest)) fromName
            (some toName)).state.nBands = some nBands
        ∧ p.dimensions = some (nSamples, L, nBands)
        ∧ p.fileHeaderBytes = some (max O 1024)
        ∧ p.byteOrder = some ByteOrder.Msb
        ∧ p.inputFile = some fromName
        ∧ p.outputCube = some toName
        ∧ p.started = true)
      ∧ (IsisMain (some (encodeHeader 1659 100 400 32 8 1024)) "in.ddd" (some "out.cub")).state.p
        = some { pixelType := some PixelType.UnsignedByte,
                 organization := some Interleave.BIP,
                 dimensions := some (100, 100, 4), fileHeaderBytes := some 1024,
                 byteOrder := some ByteOrder.Msb, inputFile := some "in.ddd",
                 outputCube := some "out.cub", started := true } := by
  refine ⟨?_, by decide⟩
  cases hq : findSecond dataTypes (if C = 0 then T else C) with
  | none =>
    rw [IsisMain_header_none L B T C O rest fromName (some toName) hL hB hT hC hq] at h
    cases h
  | some w =>
    have hmax : (if O < 1024 then (1024 : Int) else O) = max O 1024 := by
      split <;> omega
    rw [IsisMain_header_some L B T C O w rest fromName (some toName) hL hB hT hC hO hq,
      hmax] at h ⊢
    obtain ⟨b, hb⟩ := report_done _ _ _ _ _ _ _ _ _ _ h
    obtain ⟨nS, nB, d1, d2, d3⟩ := report_resolved _ _ _ _ _ _ _ _ _ _ _ hb
    rw [report_of_divs _ _ _ _ _ _ _ _ _ _ _ _ _ d1 d2 d3] at h ⊢
    obtain ⟨ty, -, hfin⟩ := finish_done _ _ _ _ _ _ _ _ _ h
    rw [hfin]
    exact ⟨_, nS, nB, rfl, rfl, rfl, rfl, rfl, rfl, rfl, rfl, rfl⟩

/-- C8 at the header (1659, 100, 400, 32, 8, 2048). -/
theorem C8_plan_contents_witness :
    ∃ p nSamples nBands,
      (IsisMain (some (encodeHeader 1659 100 400 32 8 2048 ++ [])) "in.ddd"
          (some "out.cub")).state.p = some p
        ∧ (IsisMain (some (encodeHeader 1659 100 400 32 8 2048 ++ [])) "in.ddd"
            (some "out.cub")).state.nSamples = some nSamples
        ∧ (IsisMain (some (encodeHeader 1659 100 400 32 8 2048 ++ [])) "in.ddd"
            (some "out.cub")).state.nBands = some nBands
        ∧ p.dimensions = some (nSamples, 100, nBands)
        ∧ p.fileHeaderBytes = some (max 2048 1024)
        ∧ p.byteOrder = some ByteOrder.Msb
        ∧ p.inputFile = some "in.ddd"
        ∧ p.outputCube = some "out.cub"
        ∧ p.started = true :=
  (C8_plan_contents 100 400 32 8 2048 [] "in.ddd" "out.cub" (by decide) (by decide) (by decide)
    (by decide) (by decide) (by decide)).1

/-- C9: Header Reader round trip.  On every input whose first 24 bytes encode
(1659, L, B, T, C, O), the six reads in source order yield 1659, `L`, `B`,
`T`, `C`, `O`, the cursor standing at 4, 8, 12, 16, 20 and 24 with the stream
good; the run of `IsisMain` ends with `nLines = L`, `nBytes = B`,
`totalBandBits = T`, `bitType = C`, and, when the lookup succeeds, with
`nOffset = max O 1024` and the cursor at 24. -/
theorem C9_header_round_trip (L B T C O : Int) (rest : List Byte) (fromName : String)
    (toName : Option String) (r1 r2 r3 r4 r5 r6 : IfStream × ReadBytes)
    (hL : isInt32 L) (hB : isInt32 B) (hT : isInt32 T) (hC : isInt32 C) (hO : isInt32 O)
    (e1 : r1 = readField ((IfStream.openFile (some (encodeHeader 1659 L B T C O ++ rest))).seekg 0)
      ReadBytes.zero)
    (e2 : r2 = readField r1.1 r1.2) (e3 : r3 = readField r2.1 r2.2)
    (e4 : r4 = readField r3.1 r3.2) (e5 : r5 = readField r4.1 r4.2)
    (e6 : r6 = readField r5.1 r5.2) :
    (r1.2.readLong = 1659 ∧ toInt32 r2.2.readLong = L ∧ toInt32 r3.2.readLong = B
        ∧ toInt32 r4.2.readLong = T ∧ toInt32 r5.2.readLong = C ∧ toInt32 r6.2.readLong = O)
      ∧ (r1.1.pos = 4 ∧ r2.1.pos = 8 ∧ r3.1.pos = 12 ∧ r4.1.pos = 16 ∧ r5.1.pos = 20
        ∧ r6.1.pos = 24 ∧ r6.1.good = true)
      ∧ ((IsisMain (some (encodeHeader 1659 L B T C O ++ rest)) fromName toName).state.nLines
          = some L
        ∧ (IsisMain (some (encodeHeader 1659 L B T C O ++ rest)) fromName toName).state.nBytes
          = some B
        ∧ (IsisMain (some (encodeHeader 1659 L B T C O ++ rest)) fromName
            toName).state.totalBandBits = some T
        ∧ (IsisMain (some (encodeHeader 1659 L B T C O ++ rest)) fromName toName).state.bitType
          = some C)
      ∧ (∀ w, findSecond dataTypes (if C = 0 then T else C) = some w →
          (IsisMain (some (encodeHeader 1659 L B T C O ++ rest)) fromName toName).state.nOffset
              = some (max O 1024)
            ∧ (IsisMain (some (encodeHeader 1659 L B T C O ++ rest)) fromName
                toName).state.fin.pos = 24) := by
  have hrun := IsisMain_header L B T C O rest fromName toName hL hB hT hC
  have hsome := fun w => IsisMain_header_some L B T C O w rest fromName toName hL hB hT hC hO
  have g1 := readField_encode (encodeHeader 1659 L B T C O ++ rest) true 0 1659
      (encodeInt32 L ++ (encodeInt32 B ++ (encodeInt32 T ++ (encodeInt32 C
        ++ (encodeInt32 O ++ rest))))) ReadBytes.zero (by simp [encodeHeader])
  have g2 := readField_encode (encodeHeader 1659 L B T C O ++ rest) true 4 L
      (encodeInt32 B ++ (encodeInt32 T ++ (encodeInt32 C ++ (encodeInt32 O ++ rest))))
      (hostBytes 1659) (by simp [encodeHeader, encodeInt32])
  have g3 := readField_encode (encodeHeader 1659 L B T C O ++ rest) true 8 B
      (encodeInt32 T ++ (encodeInt32 C ++ (encodeInt32 O ++ rest)))
      (hostBytes L) (by simp [encodeHeader, encodeInt32])
  have g4 := readField_encode (encodeHeader 1659 L B T C O ++ rest) true 12 T
      (encodeInt32 C ++ (encodeInt32 O ++ rest)) (hostBytes B)
      (by simp [encodeHeader, encodeInt32])
  have g5 := readField_encode (encodeHeader 1659 L B T C O ++ rest) true 16 C
      (encodeInt32 O ++ rest) (hostBytes T) (by simp [encodeHeader, encodeInt32])
  have g6 := readField_encode (encodeHeader 1659 L B T C O ++ rest) true 20 O rest
      (hostBytes C) (by simp [encodeHeader, encodeInt32])
  have hs : (IfStream.openFile (some (encodeHeader 1659 L B T C O ++ rest))).seekg 0
      = ⟨encodeHeader 1659 L B T C O ++ rest, true, 0, false, false⟩ := rfl
  rw [hs] at e1
  generalize encodeHeader 1659 L B T C O ++ rest = file at *
  rw [g1] at e1
  subst e1
  rw [g2] at e2
  subst e2
  rw [g3] at e3
  subst e3
  rw [g4] at e4
  subst e4
  rw [g5] at e5
  subst e5
  rw [g6] at e6
  subst e6
  have hx := readOffset_exits ⟨file, true, 20, false, false⟩ (hostBytes C) fromName toName
    L B T C (findSecond dataTypes (if C = 0 then T else C))
  have hm : (hostBytes 1659).readLong = 1659 := by decide
  refine ⟨⟨hm, toInt32_hostBytes L hL, toInt32_hostBytes B hB, toInt32_hostBytes T hT,
      toInt32_hostBytes C hC, toInt32_hostBytes O hO⟩, ⟨rfl, rfl, rfl, rfl, rfl, rfl, rfl⟩,
      ?_, ?_⟩
  · rw [hrun]
    exact ⟨hx.1, hx.2.1, hx.2.2.1, hx.2.2.2.1⟩
  · intro w hw
    have hmax : (if O < 1024 then (1024 : Int) else O) = max O 1024 := by
      split <;> omega
    rw [hsome w hw, hmax]
    exact ⟨(report_exits _ _ _ _ _ _ _ _ _ _).2.2.2.2.2.1, report_pos _ _ _ _ _ _ _ _ _ _⟩

/-- C9 at the header (1659, 100, 400, 32, 8, 2048) followed by two bytes. -/
theorem C9_header_round_trip_witness :
    (IsisMain (some (encodeHeader 1659 100 400 32 8 2048 ++ [7, 7])) "in.ddd"
        none).state.nLines = some 100
      ∧ (IsisMain (some (encodeHeader 1659 100 400 32 8 2048 ++ [7, 7])) "in.ddd"
        none).state.nBytes = some 400
      ∧ (IsisMain (some (encodeHeader 1659 100 400 32 8 2048 ++ [7, 7])) "in.ddd"
        none).state.totalBandBits = some 32
      ∧ (IsisMain (some (encodeHeader 1659 100 400 32 8 2048 ++ [7, 7])) "in.ddd"
        none).state.bitType = some 8 :=
  (C9_header_round_trip 100 400 32 8 2048 [7, 7] "in.ddd" none _ _ _ _ _ _ (by decide)
    (by decide) (by decide) (by decide) (by decide) rfl rfl rfl rfl rfl rfl).2.2.1

/-- C10: on the 20-byte file holding (1659, 100, 400, 32, 8) and no data
offset, the sixth read extracts nothing and sets `failbit` and `eofbit`, which
are not tested again: the stale union bytes give `nOffset = 134217728`, the
group is logged, the import is started and the run returns. -/
theorem C10_truncated_offset_not_rejected :
    (encodeInt32 1659 ++ encodeInt32 100 ++ encodeInt32 400 ++ encodeInt32 32
        ++ encodeInt32 8).length = 20
      ∧ IsisMain (some (encodeInt32 1659 ++ encodeInt32 100 ++ encodeInt32 400 ++ encodeInt32 32
          ++ encodeInt32 8)) "in.ddd" (some "out.cub")
        = { state :=
              { fin := ⟨encodeInt32 1659 ++ encodeInt32 100 ++ encodeInt32 400 ++ encodeInt32 32
                  ++ encodeInt32 8, false, 20, true, true⟩,
                readBytes := ⟨0, 0, 0, 8⟩,
                nLines := some 100, nBytes := some 400, totalBandBits := some 32,
                bitType := some 8, dataTypeBytes := some 1, nOffset := some 134217728,
                nSamples := some 100, nBands := some 4, bitsPerBand := some 8,
                log := [fileInfo 100 400 32 100 4 134217728],
                p := some { pixelType := some PixelType.UnsignedByte,
                            organization := some Interleave.BIP,
                            dimensions := some (100, 100, 4),
                            fileHeaderBytes := some 134217728,
                            byteOrder := some ByteOrder.Msb, inputFile := some "in.ddd",
                            outputCube := some "out.cub", started := true } },
            result := Result.done } := by
  decide

/-- C11, amended: truncated magic number.  On every input of fewer than four
bytes, the empty one included, the first read sets `failbit` and `eofbit` with
the cursor at the end of the file, the stream is not tested, and the run throws
the bad-magic exception naming the input file (not the read-error exception):
the zero-filled union holding the bytes that were there is never 1659. -/
theorem C11_short_input (d : List Byte) (fromName : String) (toName : Option String)
    (h : d.length < 4) :
    IsisMain (some d) fromName toName
        = { state := { fin := ⟨d, true, d.length, true, true⟩,
                       readBytes :=
                         (readField ⟨d, true, 0, false, false⟩ ReadBytes.zero).2 },
            result := Result.thrown ⟨ErrorType.Io,
              "Input file [" ++ fromName ++ "] does not appear to be in ddd format"⟩ }
      ∧ (IsisMain (some d) fromName toName).result ≠ Result.thrown ⟨ErrorType.Io,
          "An error ocurred when reading the input file [" ++ fromName ++ "]"⟩ := by
  obtain ⟨h1, h2⟩ := readField_short d h
  have hrun : IsisMain (some d) fromName toName
      = { state := { fin := ⟨d, true, d.length, true, true⟩,
                     readBytes :=
                       (readField ⟨d, true, 0, false, false⟩ ReadBytes.zero).2 },
          result := Result.thrown ⟨ErrorType.Io,
            "Input file [" ++ fromName ++ "] does not appear to be in ddd format"⟩ } := by
    generalize hr : readField ⟨d, true, 0, false, false⟩ ReadBytes.zero = r at h1 h2
    unfold IsisMain
    simp [IfStream.openFile, IfStream.is_open, IfStream.seekg, hr, h1, h2]
  refine ⟨hrun, ?_⟩
  rw [hrun]
  intro he
  simp only [Result.thrown.injEq, IException.mk.injEq, true_and] at he
  exact notDdd_ne_readError fromName he

/-- C11 amended, at the three-byte file 00 00 06. -/
theorem C11_short_input_witness :
    (IsisMain (some [0, 0, 6]) "in.ddd" none).result ≠ Result.thrown ⟨ErrorType.Io,
      "An error ocurred when reading the input file [" ++ "in.ddd" ++ "]"⟩ :=
  (C11_short_input [0, 0, 6] "in.ddd" none (by decide)).2

/-- C11 as stated fails at the empty file: the run throws the bad-magic exception,
not the read-error one. -/
theorem C11_short_input_counterexample :
    ([] : List Byte).length < 4
      ∧ IsisMain (some []) "in.ddd" (some "out.cub")
        = { state := { fin := ⟨[], true, 0, true, true⟩, readBytes := ⟨0, 0, 0, 0⟩ },
            result := Result.thrown ⟨ErrorType.Io,
              "Input file [in.ddd] does not appear to be in ddd format"⟩ }
      ∧ (IsisMain (some []) "in.ddd" (some "out.cub")).result ≠ Result.thrown ⟨ErrorType.Io,
          "An error ocurred when reading the input file [in.ddd]"⟩ := by
  decide

/-- C12: on the header (1659, 100, 400, 0, 8, 1024) the bit type 8 is in the
table and `totalBandBits` is 0; the run throws nothing: it evaluates
`nBytes / (totalBandBits / 8)` with a zero divisor and is undefined, with
nothing logged. -/
theorem C12_zero_divisor_is_undefined :
    findSecond dataTypes 8 = some 1
      ∧ IsisMain (some (encodeHeader 1659 100 400 0 8 1024)) "in.ddd" (some "out.cub")
        = { state :=
              { fin := ⟨encodeHeader 1659 100 400 0 8 1024, true, 24, false, false⟩,
                readBytes := hostBytes 1024, nLines := some 100, nBytes := some 400,
                totalBandBits := some 0, bitType := some 8, dataTypeBytes := some 1,
                nOffset := some 1024 },
            result := Result.undefined }
      ∧ intDiv 400 (Int.tdiv 0 8) = none := by
  decide

/-- C13, amended: no output target.  For every header that passes the magic
check and the lookup with non-zero divisors, and whose first quotient is
representable (not `bytesPerLine = -2^31` with `totalBandBits / 8 = -1`), the
run without `TO` returns, no setter of the import object is called, and the one
group is logged, whatever the value of `bitsPerBand`. -/
theorem C13_no_output_target (L B T C O w : Int) (rest : List Byte) (fromName : String)
    (hL : isInt32 L) (hB : isInt32 B) (hT : isInt32 T) (hC : isInt32 C) (hO : isInt32 O)
    (hw : findSecond dataTypes (if C = 0 then T else C) = some w)
    (h8 : Int.tdiv T 8 ≠ 0) (hw0 : w ≠ 0) (hn : Int.tdiv (Int.tdiv T 8) w ≠ 0)
    (hov : ¬ (B = -2147483648 ∧ Int.tdiv T 8 = -1)) :
    (IsisMain (some (encodeHeader 1659 L B T C O ++ rest)) fromName none).result = Result.done
      ∧ (IsisMain (some (encodeHeader 1659 L B T C O ++ rest)) fromName none).state.p = some {}
      ∧ (IsisMain (some (encodeHeader 1659 L B T C O ++ rest)) fromName none).state.log
        = [fileInfo L B T (Int.tdiv B (Int.tdiv T 8)) (Int.tdiv (Int.tdiv T 8) w) (max O 1024)]
      ∧ (IsisMain (some (encodeHeader 1659 L B T C O ++ rest)) fromName none).state.bitsPerBand
        = some (Int.tdiv T (Int.tdiv (Int.tdiv T 8) w)) := by
  have _ := hw0
  obtain ⟨d1, d2, d3⟩ := divs_defined B T _ w hw h8 hn hov
  rw [IsisMain_header_divs L B T C O w _ _ _ rest fromName none hL hB hT hC hO hw d1 d2 d3]
  exact ⟨rfl, rfl, rfl, rfl⟩

/-- C13 amended, at the header (1659, 100, 300, 24, 16, 1024), where
`bitsPerBand = 24`. -/
theorem C13_no_output_target_witness :
    (IsisMain (some (encodeHeader 1659 100 300 24 16 1024 ++ [])) "in.ddd" none).result
        = Result.done
      ∧ (IsisMain (some (encodeHeader 1659 100 300 24 16 1024 ++ [])) "in.ddd" none).state.p
        = some {}
      ∧ (IsisMain (some (encodeHeader 1659 100 300 24 16 1024 ++ [])) "in.ddd" none).state.log
        = [fileInfo 100 300 24 (Int.tdiv 300 (Int.tdiv 24 8)) (Int.tdiv (Int.tdiv 24 8) 2)
            (max 1024 1024)]
      ∧ (IsisMain (some (encodeHeader 1659 100 300 24 16 1024 ++ [])) "in.ddd"
          none).state.bitsPerBand = some (Int.tdiv 24 (Int.tdiv (Int.tdiv 24 8) 2)) :=
  C13_no_output_target 100 300 24 16 1024 2 [] "in.ddd" (by decide) (by decide) (by decide)
    (by decide) (by decide) (by decide) (by decide) (by decide) (by decide) (by decide)

/-- C13 as stated fails at the header (1659, 1, -2^31, -8, 8, 1024): the lookup
succeeds and no divisor is zero, yet the run without `TO` does not return (the
division `INT_MIN / -1` is undefined) and nothing is logged. -/
theorem C13_no_output_target_counterexample :
    findSecond dataTypes (if (8 : Int) = 0 then -8 else 8) = some 1
      ∧ Int.tdiv (-8) 8 ≠ 0 ∧ (1 : Int) ≠ 0 ∧ Int.tdiv (Int.tdiv (-8) 8) 1 ≠ 0
      ∧ (IsisMain (some (encodeHeader 1659 1 (-2147483648) (-8) 8 1024)) "in.ddd" none).result
          ≠ Result.done
      ∧ (IsisMain (some (encodeHeader 1659 1 (-2147483648) (-8) 8 1024)) "in.ddd" none).state.log
          = [] := by
  decide

/-- C14: metadata record.  For every header whose run resolved the geometry
(`bitsPerBand` assigned), with or without `TO`, exactly one group `FileInfo` is
logged, holding `NumberOfLines`, `NumberOfBytesPerLine`, `BitType`,
`NumberOfSamples`, `NumberOfBands`, `LabelBytes` in that order with the values
of `nLines`, `nBytes`, `totalBandBits`, `nSamples`, `nBands` and the clamped
offset; for the header (1659, 100, 300, 24, 16, 1024) `bitsPerBand` is 24, the
group is logged and the import then throws the unsupported-depth exception. -/
theorem C14_metadata_record (L B T C O b : Int) (rest : List Byte) (fromName : String)
    (toName : Option String) (hL : isInt32 L) (hB : isInt32 B) (hT : isInt32 T)
    (hC : isInt32 C) (hO : isInt32 O)
    (hb : (IsisMain (some (encodeHeader 1659 L B T C O ++ rest)) fromName
      toName).state.bitsPerBand = some b) :
    (∃ nSamples nBands,
        (IsisMain (some (encodeHeader 1659 L B T C O ++ rest)) fromName toName).state.nSamples
            = some nSamples
          ∧ (IsisMain (some (encodeHeader 1659 L B T C O ++ rest)) fromName
              toName).state.nBands = some nBands
          ∧ (IsisMain (some (encodeHeader 1659 L B T C O ++ rest)) fromName toName).state.log
            = [{ name := "FileInfo",
                 keywords :=
                   [⟨"NumberOfLines", toString L⟩, ⟨"NumberOfBytesPerLine", toString B⟩,
                    ⟨"BitType", toString T⟩, ⟨"NumberOfSamples", toString nSamples⟩,
                    ⟨"NumberOfBands", toString nBands⟩,
                    ⟨"LabelBytes", toString (max O 1024)⟩] }])
      ∧ ((IsisMain (some (encodeHeader 1659 100 300 24 16 1024)) "in.ddd"
            (some "out.cub")).state.bitsPerBand = some 24
        ∧ (IsisMain (some (encodeHeader 1659 100 300 24 16 1024)) "in.ddd"
            (some "out.cub")).state.log = [fileInfo 100 300 24 100 1 1024]
        ∧ (IsisMain (some (encodeHeader 1659 100 300 24 16 1024)) "in.ddd"
            (some "out.cub")).result
          = Result.thrown ⟨ErrorType.Io, unsupportedMessage 24⟩) := by
  refine ⟨?_, by decide⟩
  cases hq : findSecond dataTypes (if C = 0 then T else C) with
  | none =>
    rw [IsisMain_header_none L B T C O rest fromName toName hL hB hT hC hq] at hb
    cases hb
  | some w =>
    have hrun := IsisMain_header_some L B T C O w rest fromName toName hL hB hT hC hO hq
    rw [hrun] at hb
    obtain ⟨nS, nB, d1, d2, d3⟩ := report_resolved _ _ _ _ _ _ _ _ _ _ _ hb
    rw [IsisMain_header_divs L B T C O w nS nB b rest fromName toName hL hB hT hC hO hq d1 d2
      d3]
    refine ⟨nS, nB, ?_, ?_, ?_⟩
    · cases toName with
      | none => rfl
      | some t =>
        simp only [finish]
        cases hp : pixelTypeOf b with
        | none => rw [importTo_none _ _ _ _ _ _ _ _ _ hp]; rfl
        | some ty => rw [importTo_some _ _ _ _ _ _ _ _ _ ty hp]; rfl
    · cases toName with
      | none => rfl
      | some t =>
        simp only [finish]
        cases hp : pixelTypeOf b with
        | none => rw [importTo_none _ _ _ _ _ _ _ _ _ hp]; rfl
        | some ty => rw [importTo_some _ _ _ _ _ _ _ _ _ ty hp]; rfl
    · rw [finish_log]
      rfl

/-- C14 at the header (1659, 100, 300, 24, 16, 500) without `TO`. -/
theorem C14_metadata_record_witness :
    ∃ nSamples nBands,
      (IsisMain (some (encodeHeader 1659 100 300 24 16 500 ++ [])) "in.ddd" none).state.nSamples
          = some nSamples
        ∧ (IsisMain (some (encodeHeader 1659 100 300 24 16 500 ++ [])) "in.ddd"
            none).state.nBands = some nBands
        ∧ (IsisMain (some (encodeHeader 1659 100 300 24 16 500 ++ [])) "in.ddd" none).state.log
          = [{ name := "FileInfo",
               keywords :=
                 [⟨"NumberOfLines", toString (100 : Int)⟩,
                  ⟨"NumberOfBytesPerLine", toString (300 : Int)⟩,
                  ⟨"BitType", toString (24 : Int)⟩, ⟨"NumberOfSamples", toString nSamples⟩,
                  ⟨"NumberOfBands", toString nBands⟩,
                  ⟨"LabelBytes", toString (max (500 : Int) 1024)⟩] }] :=
  (C14_metadata_record 100 300 24 16 500 24 [] "in.ddd" none (by decide) (by decide)
    (by decide) (by decide) (by decide) (by decide)).1

/-- C15, amended: error payloads.  Every exception `IsisMain` throws is of class
`Io`; its message is the cannot-open, bad-magic or read-error message, each
naming the input file, or the unsupported-depth message, which carries
`totalBandBits` and does not name the input file. -/
theorem C15_error_payloads (file : Option (List Byte)) (fromName : String)
    (toName : Option String) (e : IException)
    (h : (IsisMain file fromName toName).result = Result.thrown e) :
    e.type = ErrorType.Io
      ∧ (e.message = "Cannot open input file [" ++ fromName ++ "]"
        ∨ e.message = "Input file [" ++ fromName ++ "] does not appear to be in ddd format"
        ∨ e.message = "An error ocurred when reading the input file [" ++ fromName ++ "]"
        ∨ ∃ totalBandBits,
            (IsisMain file fromName toName).state.totalBandBits = some totalBandBits
              ∧ e.message = "Unsupported bit per pixel count [" ++ toString totalBandBits
                ++ "]. "
                ++ "(Use the raw2isis and crop programs to import the file in case it is "
                ++ "line or sample interleaved.)") := by
  rcases IsisMain_thrown file fromName toName e h with rfl | rfl | rfl | ⟨T, hT, rfl⟩
  · exact ⟨rfl, Or.inl rfl⟩
  · exact ⟨rfl, Or.inr (Or.inl rfl)⟩
  · exact ⟨rfl, Or.inr (Or.inr (Or.inl rfl))⟩
  · exact ⟨rfl, Or.inr (Or.inr (Or.inr ⟨T, hT, rfl⟩))⟩

/-- C15 amended, at a file that cannot be opened. -/
theorem C15_error_payloads_witness :
    (⟨ErrorType.Io, "Cannot open input file [in.ddd]"⟩ : IException).type = ErrorType.Io
      ∧ ((⟨ErrorType.Io, "Cannot open input file [in.ddd]"⟩ : IException).message
          = "Cannot open input file [" ++ "in.ddd" ++ "]"
        ∨ (⟨ErrorType.Io, "Cannot open input file [in.ddd]"⟩ : IException).message
          = "Input file [" ++ "in.ddd" ++ "] does not appear to be in ddd format"
        ∨ (⟨ErrorType.Io, "Cannot open input file [in.ddd]"⟩ : IException).message
          = "An error ocurred when reading the input file [" ++ "in.ddd" ++ "]"
        ∨ ∃ totalBandBits,
            (IsisMain none "in.ddd" none).state.totalBandBits = some totalBandBits
              ∧ (⟨ErrorType.Io, "Cannot open input file [in.ddd]"⟩ : IException).message
                = "Unsupported bit per pixel count [" ++ toString totalBandBits ++ "]. "
                ++ "(Use the raw2isis and crop programs to import the file in case it is "
                ++ "line or sample interleaved.)") :=
  C15_error_payloads none "in.ddd" none ⟨ErrorType.Io, "Cannot open input file [in.ddd]"⟩
    (by decide)

/-- C15 as stated fails at the header (1659, 100, 900, 72, 1450902560, 1024):
`bitsPerBand` is 36, the message carries 72 (`totalBandBits`), and it is the
same message whatever the input file is called. -/
theorem C15_error_payloads_counterexample :
    (IsisMain (some (encodeHeader 1659 100 900 72 1450902560 1024)) "in.ddd"
        (some "out.cub")).state.bitsPerBand = some 36
      ∧ (IsisMain (some (encodeHeader 1659 100 900 72 1450902560 1024)) "in.ddd"
          (some "out.cub")).result
        = Result.thrown ⟨ErrorType.Io,
            "Unsupported bit per pixel count [72]. (Use the raw2isis and crop programs to import the file in case it is line or sample interleaved.)"⟩
      ∧ (IsisMain (some (encodeHeader 1659 100 900 72 1450902560 1024)) "other.ddd"
          (some "out.cub")).result
        = (IsisMain (some (encodeHeader 1659 100 900 72 1450902560 1024)) "in.ddd"
          (some "out.cub")).result := by
  decide

/-- C16: the element type is determined by the sample byte width.  For every
header whose lookup gives `w` (one of 1, 2, 4, 8) and with
`totalBandBits ≥ 8 * w`, `bitsPerBand` is assigned and lies in
`[8 * w, 16 * w)`.  With `TO` entered the run returns exactly when
`bitsPerBand = 8 * w` and `w` is not 8, and then the import is started with
the pixel type `UnsignedByte`, `UnsignedWord`, `Real` for `w` = 1, 2, 4.  The
header with `totalBandBits = 33` and width 2 has 2 bands of 16 bits and is
imported as `UnsignedWord`. -/
theorem C16_element_type_by_width (L B T C O w : Int) (rest : List Byte)
    (fromName toName : String) (hL : isInt32 L) (hB : isInt32 B) (hT : isInt32 T)
    (hC : isInt32 C) (hO : isInt32 O)
    (hw : findSecond dataTypes (if C = 0 then T else C) = some w)
    (h8 : 8 * w ≤ T) :
    (w = 1 ∨ w = 2 ∨ w = 4 ∨ w = 8)
      ∧ (∀ tn : Option String, ∃ b,
          (IsisMain (some (encodeHeader 1659 L B T C O ++ rest)) fromName tn).state.bitsPerBand
              = some b
            ∧ 8 * w ≤ b ∧ b < 16 * w)
      ∧ (∃ b,
          (IsisMain (some (encodeHeader 1659 L B T C O ++ rest)) fromName
              (some toName)).state.bitsPerBand = some b
            ∧ ((IsisMain (some (encodeHeader 1659 L B T C O ++ rest)) fromName
                  (some toName)).result = Result.done ↔ (b = 8 * w ∧ w ≠ 8))
            ∧ (b = 8 * w → w ≠ 8 →
                (IsisMain (some (encodeHeader 1659 L B T C O ++ rest)) fromName
                    (some toName)).result = Result.done
                  ∧ ∃ p, (IsisMain (some (encodeHeader 1659 L B T C O ++ rest)) fromName
                      (some toName)).state.p = some p
                    ∧ p.started = true
                    ∧ (w = 1 → p.pixelType = some PixelType.UnsignedByte)
                    ∧ (w = 2 → p.pixelType = some PixelType.UnsignedWord)
                    ∧ (w = 4 → p.pixelType = some PixelType.Real)))
      ∧ ((IsisMain (some (encodeHeader 1659 100 400 33 16 1024)) "in.ddd"
            (some "out.cub")).state.nBands = some 2
        ∧ (IsisMain (some (encodeHeader 1659 100 400 33 16 1024)) "in.ddd"
            (some "out.cub")).state.bitsPerBand = some 16
        ∧ (IsisMain (some (encodeHeader 1659 100 400 33 16 1024)) "in.ddd"
            (some "out.cub")).result = Result.done
        ∧ (IsisMain (some (encodeHeader 1659 100 400 33 16 1024)) "in.ddd"
            (some "out.cub")).state.p
          = some { pixelType := some PixelType.UnsignedWord,
                   organization := some Interleave.BIP,
                   dimensions := some (100, 100, 2), fileHeaderBytes := some 1024,
                   byteOrder := some ByteOrder.Msb, inputFile := some "in.ddd",
                   outputCube := some "out.cub", started := true }) := by
  have hwc := width_of_findSecond _ w hw
  obtain ⟨hn, -, -, -, hq⟩ := nBands_pos T w hwc h8
  obtain ⟨hlo, hhi⟩ := bitsPerBand_range T w hwc h8
  obtain ⟨d1, d2, d3⟩ := divs_defined B T _ w hw (by omega) (by omega) (by omega)
  have hrun := fun tn =>
    IsisMain_header_divs L B T C O w _ _ _ rest fromName tn hL hB hT hC hO hw d1 d2 d3
  refine ⟨hwc, ?_, ?_, by decide⟩
  · intro tn
    rw [hrun tn]
    exact ⟨_, finish_bitsPerBand _ _ _ _ _ _ _ _ _, hlo, hhi⟩
  · rw [hrun (some toName)]
    refine ⟨_, finish_bitsPerBand _ _ _ _ _ _ _ _ _, ?_⟩
    simp only [finish, resolved]
    generalize Int.tdiv T (Int.tdiv (Int.tdiv T 8) w) = b at hlo hhi ⊢
    cases hp : pixelTypeOf b with
    | none =>
      have hne := (pixelTypeOf_eq_none b).1 hp
      have hno : ¬ (b = 8 * w ∧ w ≠ 8) := by
        rintro ⟨hb, hw8⟩
        rcases hwc with h | h | h | h <;> omega
      rw [importTo_none _ _ _ _ _ _ _ _ _ hp]
      refine ⟨⟨fun h => ?_, fun h => absurd h hno⟩, fun hb hw8 => absurd ⟨hb, hw8⟩ hno⟩
      cases h
    | some ty =>
      rw [importTo_some _ _ _ _ _ _ _ _ _ ty hp]
      have hyes : b = 8 * w ∧ w ≠ 8 := by
        rcases pixelTypeOf_width b ty hp with ⟨hb, -⟩ | ⟨hb, -⟩ | ⟨hb, -⟩ <;>
          rcases hwc with h | h | h | h <;> omega
      refine ⟨⟨fun _ => hyes, fun _ => rfl⟩, fun _ _ => ⟨rfl, _, rfl, rfl, ?_, ?_, ?_⟩⟩
      · intro h1
        rcases pixelTypeOf_width b ty hp with ⟨hb, rfl⟩ | ⟨hb, rfl⟩ | ⟨hb, rfl⟩
        · rfl
        · omega
        · omega
      · intro h2
        rcases pixelTypeOf_width b ty hp with ⟨hb, rfl⟩ | ⟨hb, rfl⟩ | ⟨hb, rfl⟩
        · omega
        · rfl
        · omega
      · intro h4
        rcases pixelTypeOf_width b ty hp with ⟨hb, rfl⟩ | ⟨hb, rfl⟩ | ⟨hb, rfl⟩
        · omega
        · omega
        · rfl

/-- C16 at the header (1659, 100, 400, 33, 16, 1024): the run with `TO`
returns and the import is started as `UnsignedWord`. -/
theorem C16_element_type_by_width_witness :
    (IsisMain (some (encodeHeader 1659 100 400 33 16 1024 ++ [])) "in.ddd"
        (some "out.cub")).result = Result.done
      ∧ ∃ p, (IsisMain (some (encodeHeader 1659 100 400 33 16 1024 ++ [])) "in.ddd"
          (some "out.cub")).state.p = some p
        ∧ p.started = true
        ∧ p.pixelType = some PixelType.UnsignedWord := by
  obtain ⟨b, hb, -, hd⟩ := (C16_element_type_by_width 100 400 33 16 1024 2 [] "in.ddd"
    "out.cub" (by decide) (by decide) (by decide) (by decide) (by decide) (by decide)
    (by decide)).2.2.1
  have hb16 : b = 8 * 2 := Option.some.inj (hb.symm.trans (by decide))
  obtain ⟨hdone, p, hp, hs, -, h2, -⟩ := hd hb16 (by decide)
  exact ⟨hdone, p, hp, hs, h2 rfl⟩

/-- C17: the 8-byte table entry can never be imported.  A header resolves to
width 8 only through the code 1450903360 (as bit type, or as `totalBandBits`
of a legacy header); when its band count is not zero, `bitsPerBand ≥ 64` and
the run with `TO` throws the unsupported-depth exception without calling a
setter; for no `totalBandBits` does such a run return. -/
theorem C17_eight_byte_samples (L B T C O : Int) (rest : List Byte) (fromName toName : String)
    (hL : isInt32 L) (hB : isInt32 B) (hT : isInt32 T) (hC : isInt32 C) (hO : isInt32 O)
    (hw : findSecond dataTypes (if C = 0 then T else C) = some 8) :
    (C = 1450903360 ∨ (C = 0 ∧ T = 1450903360))
      ∧ (Int.tdiv (Int.tdiv T 8) 8 ≠ 0 →
          (∃ b,
            (IsisMain (some (encodeHeader 1659 L B T C O ++ rest)) fromName
                (some toName)).state.bitsPerBand = some b
              ∧ 64 ≤ b)
          ∧ (IsisMain (some (encodeHeader 1659 L B T C O ++ rest)) fromName
              (some toName)).result = Result.thrown ⟨ErrorType.Io, unsupportedMessage T⟩
          ∧ (IsisMain (some (encodeHeader 1659 L B T C O ++ rest)) fromName
              (some toName)).state.p = some {})
      ∧ (IsisMain (some (encodeHeader 1659 L B T C O ++ rest)) fromName (some toName)).result
        ≠ Result.done := by
  have hkey : C = 1450903360 ∨ (C = 0 ∧ T = 1450903360) := by
    have hm := mem_of_findSecond dataTypes _ 8 hw
    simp only [dataTypes, List.mem_cons, Prod.mk.injEq, List.mem_singleton, List.not_mem_nil,
      or_false] at hm
    by_cases h0 : C = 0
    · rw [if_pos h0] at hm
      exact Or.inr ⟨h0, by omega⟩
    · rw [if_neg h0] at hm
      exact Or.inl (by omega)
  have hwide : Int.tdiv (Int.tdiv T 8) 8 ≠ 0 →
      (∃ b,
        (IsisMain (some (encodeHeader 1659 L B T C O ++ rest)) fromName
            (some toName)).state.bitsPerBand = some b
          ∧ 64 ≤ b)
      ∧ (IsisMain (some (encodeHeader 1659 L B T C O ++ rest)) fromName
          (some toName)).result = Result.thrown ⟨ErrorType.Io, unsupportedMessage T⟩
      ∧ (IsisMain (some (encodeHeader 1659 L B T C O ++ rest)) fromName
          (some toName)).state.p = some {} := by
    intro hn
    obtain ⟨hq0, hq1, hov3, hb64⟩ := bitsPerBand_wide T hT hn
    have d1 : intDiv B (Int.tdiv T 8) = some (Int.tdiv B (Int.tdiv T 8)) := by
      have hov : ¬ (B = -2147483648 ∧ Int.tdiv T 8 = -1) := fun h => hq1 h.2
      simp only [intDiv, if_neg hq0, if_neg hov]
    have d2 : intDiv (Int.tdiv T 8) 8 = some (Int.tdiv (Int.tdiv T 8) 8) := by
      have h0 : (8 : Int) ≠ 0 := by decide
      have h1 : ¬ (Int.tdiv T 8 = -2147483648 ∧ (8 : Int) = -1) := by
        intro h
        exact absurd h.2 (by decide)
      simp only [intDiv, if_neg h0, if_neg h1]
    have d3 : intDiv T (Int.tdiv (Int.tdiv T 8) 8)
        = some (Int.tdiv T (Int.tdiv (Int.tdiv T 8) 8)) := by
      simp only [intDiv, if_neg hn, if_neg hov3]
    have hp : pixelTypeOf (Int.tdiv T (Int.tdiv (Int.tdiv T 8) 8)) = none :=
      (pixelTypeOf_eq_none _).2 ⟨by omega, by omega, by omega⟩
    rw [IsisMain_header_divs L B T C O 8 _ _ _ rest fromName (some toName) hL hB hT hC hO hw
      d1 d2 d3]
    simp only [finish]
    rw [importTo_none _ _ _ _ _ _ _ _ _ hp]
    exact ⟨⟨_, rfl, hb64⟩, rfl, rfl⟩
  refine ⟨hkey, hwide, ?_⟩
  by_cases hn : Int.tdiv (Int.tdiv T 8) 8 = 0
  · rw [IsisMain_header_some L B T C O 8 rest fromName (some toName) hL hB hT hC hO hw]
    rcases report_cases ⟨encodeHeader 1659 L B T C O ++ rest, true, 24, false, false⟩
      (hostBytes O) fromName (some toName) L B T C 8 (if O < 1024 then 1024 else O)
      with ⟨hu, -⟩ | ⟨nS, nB, b, -, d2, d3, -⟩
    · rw [hu]
      intro h
      cases h
    · exfalso
      obtain ⟨-, e2⟩ := intDiv_some _ _ _ d2
      obtain ⟨h3, -⟩ := intDiv_some _ _ _ d3
      exact h3 (e2.trans hn)
  · rw [(hwide hn).2.1]
    intro h
    cases h

/-- C17 at the header (1659, 100, 800, 64, 1450903360, 1024). -/
theorem C17_eight_byte_samples_witness :
    (IsisMain (some (encodeHeader 1659 100 800 64 1450903360 1024 ++ [])) "in.ddd"
        (some "out.cub")).result = Result.thrown ⟨ErrorType.Io, unsupportedMessage 64⟩ :=
  ((C17_eight_byte_samples 100 800 64 1450903360 1024 [] "in.ddd" "out.cub" (by decide)
    (by decide) (by decide) (by decide) (by decide) (by decide)).2.1 (by decide)).2.1

/-- C18: legacy headers.  For every header with bit type 0 and `TO` entered:
`totalBandBits = 8` gives 1 band of `UnsignedByte`, 16 gives 1 band of
`UnsignedWord`, 48 gives 3 bands of `UnsignedWord` with organization `BIP`; in
all three `nSamples = nBytes / (totalBandBits / 8)` and the import is started. -/
theorem C18_legacy_headers (L B O : Int) (rest : List Byte) (fromName toName : String)
    (hL : isInt32 L) (hB : isInt32 B) (hO : isInt32 O) :
    ((IsisMain (some (encodeHeader 1659 L B 8 0 O ++ rest)) fromName (some toName)).result
          = Result.done
        ∧ (IsisMain (some (encodeHeader 1659 L B 8 0 O ++ rest)) fromName
            (some toName)).state.nBands = some 1
        ∧ (IsisMain (some (encodeHeader 1659 L B 8 0 O ++ rest)) fromName
            (some toName)).state.nSamples = some (Int.tdiv B (Int.tdiv 8 8))
        ∧ ∃ p, (IsisMain (some (encodeHeader 1659 L B 8 0 O ++ rest)) fromName
            (some toName)).state.p = some p
          ∧ p.pixelType = some PixelType.UnsignedByte ∧ p.started = true)
      ∧ ((IsisMain (some (encodeHeader 1659 L B 16 0 O ++ rest)) fromName (some toName)).result
          = Result.done
        ∧ (IsisMain (some (encodeHeader 1659 L B 16 0 O ++ rest)) fromName
            (some toName)).state.nBands = some 1
        ∧ (IsisMain (some (encodeHeader 1659 L B 16 0 O ++ rest)) fromName
            (some toName)).state.nSamples = some (Int.tdiv B (Int.tdiv 16 8))
        ∧ ∃ p, (IsisMain (some (encodeHeader 1659 L B 16 0 O ++ rest)) fromName
            (some toName)).state.p = some p
          ∧ p.pixelType = some PixelType.UnsignedWord ∧ p.started = true)
      ∧ ((IsisMain (some (encodeHeader 1659 L B 48 0 O ++ rest)) fromName (some toName)).result
          = Result.done
        ∧ (IsisMain (some (encodeHeader 1659 L B 48 0 O ++ rest)) fromName
            (some toName)).state.nBands = some 3
        ∧ (IsisMain (some (encodeHeader 1659 L B 48 0 O ++ rest)) fromName
            (some toName)).state.nSamples = some (Int.tdiv B (Int.tdiv 48 8))
        ∧ ∃ p, (IsisMain (some (encodeHeader 1659 L B 48 0 O ++ rest)) fromName
            (some toName)).state.p = some p
          ∧ p.pixelType = some PixelType.UnsignedWord
          ∧ p.organization = some Interleave.BIP ∧ p.started = true) := by
  have r8 := IsisMain_legacy L B 8 O 1 PixelType.UnsignedByte rest fromName toName hL hB
    (by decide) hO (by decide) (by decide) (by decide)
  have r16 := IsisMain_legacy L B 16 O 2 PixelType.UnsignedWord rest fromName toName hL hB
    (by decide) hO (by decide) (by decide) (by decide)
  have r48 := IsisMain_legacy L B 48 O 2 PixelType.UnsignedWord rest fromName toName hL hB
    (by decide) hO (by decide) (by decide) (by decide)
  rw [r8, r16, r48]
  exact ⟨⟨rfl, rfl, rfl, _, rfl, rfl, rfl⟩, ⟨rfl, rfl, rfl, _, rfl, rfl, rfl⟩,
    ⟨rfl, rfl, rfl, _, rfl, rfl, rfl, rfl⟩⟩

/-- C18 at the header (1659, 10, 60, 48, 0, 1024). -/
theorem C18_legacy_headers_witness :
    (IsisMain (some (encodeHeader 1659 10 60 48 0 1024 ++ [])) "in.ddd"
        (some "out.cub")).result = Result.done
      ∧ (IsisMain (some (encodeHeader 1659 10 60 48 0 1024 ++ [])) "in.ddd"
          (some "out.cub")).state.nBands = some 3 :=
  ⟨(C18_legacy_headers 10 60 1024 [] "in.ddd" "out.cub" (by decide) (by decide)
      (by decide)).2.2.1,
   (C18_legacy_headers 10 60 1024 [] "in.ddd" "out.cub" (by decide) (by decide)
      (by decide)).2.2.2.1⟩

/-- C19: the import never describes a line wider than the file declares.  For
every header with `bytesPerLine ≥ 0` and `totalBandBits ≥ 8` whose run with
`TO` returns, `nSamples * nBands * elementBytes ≤ bytesPerLine` for the
dimensions and pixel type the import was started with. -/
theorem C19_line_width (L B T C O : Int) (rest : List Byte) (fromName toName : String)
    (hL : isInt32 L) (hB : isInt32 B) (hT : isInt32 T) (hC : isInt32 C) (hO : isInt32 O)
    (hB0 : 0 ≤ B) (hT8 : 8 ≤ T)
    (hdone : (IsisMain (some (encodeHeader 1659 L B T C O ++ rest)) fromName
      (some toName)).result = Result.done) :
    ∃ p ty nSamples nBands,
      (IsisMain (some (encodeHeader 1659 L B T C O ++ rest)) fromName (some toName)).state.p
          = some p
        ∧ p.started = true
        ∧ p.pixelType = some ty
        ∧ p.dimensions = some (nSamples, L, nBands)
        ∧ nSamples * nBands * elementBytes ty ≤ B := by
  cases hq : findSecond dataTypes (if C = 0 then T else C) with
  | none =>
    rw [IsisMain_header_none L B T C O rest fromName (some toName) hL hB hT hC hq] at hdone
    cases hdone
  | some w =>
    have hwc := width_of_findSecond _ w hq
    have hmax : (if O < 1024 then (1024 : Int) else O) = max O 1024 := by
      split <;> omega
    rw [IsisMain_header_some L B T C O w rest fromName (some toName) hL hB hT hC hO hq,
      hmax] at hdone ⊢
    rcases report_cases ⟨encodeHeader 1659 L B T C O ++ rest, true, 24, false, false⟩
      (hostBytes O) fromName (some toName) L B T C w (max O 1024)
      with ⟨hu, -⟩ | ⟨nS, nB, b, d1, d2, d3, hrun⟩
    · rw [hu] at hdone
      cases hdone
    · rw [hrun] at hdone ⊢
      obtain ⟨ty, hty, hfin⟩ := finish_done _ _ _ _ _ _ _ _ _ hdone
      rw [hfin]
      obtain ⟨-, e1⟩ := intDiv_some _ _ _ d1
      obtain ⟨-, e2⟩ := intDiv_some _ _ _ d2
      obtain ⟨hnB, e3⟩ := intDiv_some _ _ _ d3
      have hz := zero_divisor_iff T w hwc (by omega)
      have h8w : 8 * w ≤ T := by
        by_contra hlt
        rcases hz.1.1 (by omega) with h0 | h0
        · have h8 : Int.tdiv T 8 = T / 8 := Int.tdiv_eq_ediv (by omega) (by decide)
          omega
        · exact hnB (e2.trans h0)
      obtain ⟨hlo, hhi⟩ := bitsPerBand_range T w hwc h8w
      have hfit := line_fits B T w hwc hB0 h8w
      rw [← e2] at hlo hhi
      rw [← e3] at hlo hhi
      rw [← e1, ← e2] at hfit
      have hel : elementBytes ty = w := by
        rcases pixelTypeOf_width b ty hty with ⟨hb, rfl⟩ | ⟨hb, rfl⟩ | ⟨hb, rfl⟩ <;>
          simp only [elementBytes] <;> rcases hwc with h | h | h | h <;> omega
      exact ⟨_, ty, nS, nB, rfl, rfl, rfl, rfl, by rw [hel]; exact hfit⟩

/-- C19 at the header (1659, 100, 401, 33, 16, 1024). -/
theorem C19_line_width_witness :
    ∃ p ty nSamples nBands,
      (IsisMain (some (encodeHeader 1659 100 401 33 16 1024 ++ [])) "in.ddd"
          (some "out.cub")).state.p = some p
        ∧ p.started = true
        ∧ p.pixelType = some ty
        ∧ p.dimensions = some (nSamples, 100, nBands)
        ∧ nSamples * nBands * elementBytes ty ≤ 401 :=
  C19_line_width 100 401 33 16 1024 [] "in.ddd" "out.cub" (by decide) (by decide) (by decide)
    (by decide) (by decide) (by decide) (by decide) (by decide)

/-- C20: division safety.  For every header with `totalBandBits ≥ 0` whose
lookup gives `w` (so `w ≥ 1`): one of the three divisions is undefined exactly
when `totalBandBits < 8 * w`, that is when `totalBandBits / 8 = 0` or
`nBands = 0`, and exactly then the run is undefined, with or without `TO`;
without `TO` a zero `nBands` is still divided by; a legacy header whose lookup
succeeds has `totalBandBits ≥ 8 * w`. -/
theorem C20_division_safety (L B T C O w : Int) (rest : List Byte) (fromName : String)
    (toName : Option String) (hL : isInt32 L) (hB : isInt32 B) (hT : isInt32 T)
    (hC : isInt32 C) (hO : isInt32 O)
    (hw : findSecond dataTypes (if C = 0 then T else C) = some w) (hT0 : 0 ≤ T) :
    1 ≤ w
      ∧ ((intDiv B (Int.tdiv T 8) = none ∨ intDiv (Int.tdiv T 8) w = none
          ∨ intDiv T (Int.tdiv (Int.tdiv T 8) w) = none) ↔ T < 8 * w)
      ∧ (T < 8 * w ↔ (Int.tdiv T 8 = 0 ∨ Int.tdiv (Int.tdiv T 8) w = 0))
      ∧ ((IsisMain (some (encodeHeader 1659 L B T C O ++ rest)) fromName toName).result
          = Result.undefined ↔ T < 8 * w)
      ∧ (Int.tdiv T 8 ≠ 0 → Int.tdiv (Int.tdiv T 8) w = 0 →
          (IsisMain (some (encodeHeader 1659 L B T C O ++ rest)) fromName none).state.nBands
              = some 0
            ∧ (IsisMain (some (encodeHeader 1659 L B T C O ++ rest)) fromName none).result
              = Result.undefined)
      ∧ (C = 0 → 8 * w ≤ T) := by
  have hwc := width_of_findSecond _ w hw
  obtain ⟨hz, hq0, hn0⟩ := zero_divisor_iff T w hwc hT0
  have hrun := fun tn => IsisMain_header_some L B T C O w rest fromName tn hL hB hT hC hO hw
  have hdivs : (intDiv B (Int.tdiv T 8) = none ∨ intDiv (Int.tdiv T 8) w = none
      ∨ intDiv T (Int.tdiv (Int.tdiv T 8) w) = none) ↔ T < 8 * w := by
    rw [intDiv_none, intDiv_none, intDiv_none, hz]
    constructor
    · rintro (h | h | h)
      · exact Or.inl (by omega)
      · omega
      · exact Or.inr (by omega)
    · rintro (h | h)
      · exact Or.inl (Or.inl h)
      · exact Or.inr (Or.inr (Or.inl h))
  refine ⟨by omega, hdivs, hz, ?_, ?_, ?_⟩
  · rw [hrun toName]
    constructor
    · intro hu
      by_contra hge
      have h8w : 8 * w ≤ T := by omega
      obtain ⟨hn, -, -, -, hq⟩ := nBands_pos T w hwc h8w
      obtain ⟨d1, d2, d3⟩ := divs_defined B T _ w hw (by omega) (by omega) (by omega)
      rw [report_of_divs _ _ _ _ _ _ _ _ _ _ _ _ _ d1 d2 d3] at hu
      rcases finish_result (resolved ⟨encodeHeader 1659 L B T C O ++ rest, true, 24, false,
          false⟩ (hostBytes O) L B T C w (if O < 1024 then 1024 else O) (Int.tdiv B (Int.tdiv T 8))
          (Int.tdiv (Int.tdiv T 8) w) (Int.tdiv T (Int.tdiv (Int.tdiv T 8) w))) fromName toName L
          T (if O < 1024 then 1024 else O) (Int.tdiv B (Int.tdiv T 8))
          (Int.tdiv (Int.tdiv T 8) w) (Int.tdiv T (Int.tdiv (Int.tdiv T 8) w))
        with hd | ⟨ht, -⟩
      · rw [hd] at hu
        cases hu
      · rw [ht] at hu
        cases hu
    · intro hlt
      rcases report_cases ⟨encodeHeader 1659 L B T C O ++ rest, true, 24, false, false⟩
        (hostBytes O) fromName toName L B T C w (if O < 1024 then 1024 else O)
        with ⟨hu, -⟩ | ⟨nS, nB, b, d1, d2, d3, -⟩
      · exact hu
      · exfalso
        obtain ⟨h1, -⟩ := intDiv_some _ _ _ d1
        obtain ⟨-, e2⟩ := intDiv_some _ _ _ d2
        obtain ⟨h3, -⟩ := intDiv_some _ _ _ d3
        rcases hz.1 hlt with h0 | h0
        · exact h1 h0
        · exact h3 (e2.trans h0)
  · intro h8 hn
    rw [hrun none]
    rcases report_cases ⟨encodeHeader 1659 L B T C O ++ rest, true, 24, false, false⟩
      (hostBytes O) fromName none L B T C w (if O < 1024 then 1024 else O)
      with ⟨hu, hc⟩ | ⟨nS, nB, b, d1, d2, d3, -⟩
    · refine ⟨?_, hu⟩
      rcases hc with hc | hc | ⟨nS, nB, -, d2, -, hnb, -⟩
      · rw [intDiv_none] at hc
        omega
      · rw [intDiv_none] at hc
        omega
      · obtain ⟨-, e2⟩ := intDiv_some _ _ _ d2
        rw [hnb, e2, hn]
    · exfalso
      obtain ⟨-, e2⟩ := intDiv_some _ _ _ d2
      obtain ⟨h3, -⟩ := intDiv_some _ _ _ d3
      exact h3 (e2.trans hn)
  · intro hC0
    rw [if_pos hC0] at hw
    have hm := mem_of_findSecond dataTypes T w hw
    simp only [dataTypes, List.mem_cons, Prod.mk.injEq, List.mem_singleton, List.not_mem_nil,
      or_false] at hm
    omega

/-- C20 at the header (1659, 100, 300, 8, 16, 1024) without `TO`: `nBands` is 0
and the run is undefined. -/
theorem C20_division_safety_witness :
    (IsisMain (some (encodeHeader 1659 100 300 8 16 1024 ++ [])) "in.ddd" none).state.nBands
        = some 0
      ∧ (IsisMain (some (encodeHeader 1659 100 300 8 16 1024 ++ [])) "in.ddd" none).result
        = Result.undefined :=
  (C20_division_safety 100 300 8 16 1024 2 [] "in.ddd" none (by decide) (by decide)
    (by decide) (by decide) (by decide) (by decide) (by decide)).2.2.2.2.1 (by decide)
    (by decide)

/-- C21: signed interpretation of the data offset.  For every header whose
lookup succeeds and whose bytes 20-23 hold the unsigned big-endian value `u`,
the `long` read is `u` and `(int)` narrows it before the clamp: for
`u ≥ 2^31` it wraps to `u - 2^32 < 1024` and `nOffset` is 1024; for
`1024 ≤ u < 2^31` it is unchanged and `nOffset` is `u`. -/
theorem C21_signed_offset (L B T C u w : Int) (rest : List Byte) (fromName : String)
    (toName : Option String) (hL : isInt32 L) (hB : isInt32 B) (hT : isInt32 T)
    (hC : isInt32 C) (hu0 : 0 ≤ u) (hu1 : u < 4294967296)
    (hw : findSecond dataTypes (if C = 0 then T else C) = some w) :
    (∀ rb, (readField ⟨encodeHeader 1659 L B T C u ++ rest, true, 20, false, false⟩
        rb).2.readLong = u)
      ∧ (2147483648 ≤ u →
          toInt32 u = u - 4294967296 ∧ u - 4294967296 < 1024
            ∧ (IsisMain (some (encodeHeader 1659 L B T C u ++ rest)) fromName
                toName).state.nOffset = some 1024)
      ∧ (1024 ≤ u → u < 2147483648 →
          toInt32 u = u
            ∧ (IsisMain (some (encodeHeader 1659 L B T C u ++ rest)) fromName
                toName).state.nOffset = some u) := by
  refine ⟨?_, ?_, ?_⟩
  · intro rb
    rw [readField_encode (encodeHeader 1659 L B T C u ++ rest) true 20 u rest rb
      (by simp [encodeHeader, encodeInt32])]
    show (hostBytes u).readLong = u
    rw [readLong_hostBytes]
    omega
  · intro h
    have hO : isInt32 (u - 4294967296) := by
      unfold isInt32
      omega
    have henc : encodeHeader 1659 L B T C u = encodeHeader 1659 L B T C (u - 4294967296) := by
      simp only [encodeHeader, encodeInt32_wrap]
    refine ⟨by unfold toInt32; omega, by omega, ?_⟩
    rw [henc, IsisMain_header_some L B T C (u - 4294967296) w rest fromName toName hL hB hT hC
      hO hw, (report_exits _ _ _ _ _ _ _ _ _ _).2.2.2.2.2.1, if_pos (by omega)]
  · intro h1 h2
    have hO : isInt32 u := by
      unfold isInt32
      omega
    refine ⟨by unfold toInt32; omega, ?_⟩
    rw [IsisMain_header_some L B T C u w rest fromName toName hL hB hT hC hO hw,
      (report_exits _ _ _ _ _ _ _ _ _ _).2.2.2.2.2.1, if_neg (by omega)]

/-- C21 at the header (1659, 100, 400, 32, 8, 2^32 - 1024). -/
theorem C21_signed_offset_witness :
    toInt32 4294966272 = 4294966272 - 4294967296 ∧ (4294966272 : Int) - 4294967296 < 1024
      ∧ (IsisMain (some (encodeHeader 1659 100 400 32 8 4294966272 ++ [])) "in.ddd"
          none).state.nOffset = some 1024 :=
  (C21_signed_offset 100 400 32 8 4294966272 1 [] "in.ddd" none (by decide) (by decide)
    (by decide) (by decide) (by decide) (by decide) (by decide)).2.1 (by decide)

end Ddd2Isis
